import Mathlib

/-!
slack-term: the channel list component (`components/channels.go`)

A shallow embedding of the `Channels` component and the proofs of the
properties its specification states.

Modelling conventions.

* A Go `string` is a `List Char` (the sequence of its code points).  All the
  strings handled here are UTF-8 text, on which the byte-wise functions of
  package `strings` (`Contains`, `Split`, `TrimSpace`, `Replace`) agree with
  their code-point-wise counterparts.
* A Go `int` is an `Int`.  The three counters of the component are bounded by
  the length of the list and the height of the terminal, far away from the
  word size, so no wrap-around is modelled.
* A run-time panic (index out of range) is the result `none`.
* `c.List.Items` is the field `Items`; the two values the code reads from
  `c.List.InnerBounds()`, `Min.Y` and `Max.Y`, are the fields `MinY` and
  `MaxY` (the termui block from which they are computed is never modified by
  the operations below).
* The terminal bell of `SetNotification` is an output, not state, and is left
  out.
* Of `Buffer`, the loop over the labels is kept: which label is drawn on
  which screen row, and whether the row is drawn highlighted; the cells of a
  row are left out.
-/

namespace SlackTerm

/-- A Go string, as the list of its code points. -/
abbrev GoString := List Char

/-! ## Package `strings` and `fmt` -/

/-- Go `strings.HasPrefix`. -/
def startsWith : GoString → GoString → Bool
  | _, [] => true
  | [], _ :: _ => false
  | c :: s, d :: p => c == d && startsWith s p

/-- Go `strings.Contains s substr`: `substr` occurs in `s`; the empty string
occurs in every string (`strings.Index s "" = 0`). -/
def Contains : GoString → GoString → Bool
  | [], substr => startsWith [] substr
  | c :: s, substr => startsWith (c :: s) substr || Contains s substr

/-- Go `unicode.IsSpace`. -/
def isSpace (c : Char) : Bool :=
  let n := c.toNat
  (9 ≤ n && n ≤ 13) || n == 32 || n == 0x85 || n == 0xA0 || n == 0x1680 ||
  (0x2000 ≤ n && n ≤ 0x200A) || n == 0x2028 || n == 0x2029 || n == 0x202F ||
  n == 0x205F || n == 0x3000

/-- Go `strings.TrimSpace`: leading and trailing white space removed. -/
def TrimSpace (s : GoString) : GoString :=
  ((s.dropWhile isSpace).reverse.dropWhile isSpace).reverse

/-- The scan of `strings.Split s sep` for a non-empty `sep`: `acc` holds, in
reverse, the piece being read, and `skip` counts the characters of a
separator that was just found and still have to be passed over. -/
def splitGo (sep : GoString) : GoString → GoString → Nat → List GoString
  | [], acc, _ => [acc.reverse]
  | _ :: s, acc, skip + 1 => splitGo sep s acc skip
  | c :: s, acc, 0 =>
    if startsWith (c :: s) sep then acc.reverse :: splitGo sep s [] (sep.length - 1)
    else splitGo sep s (c :: acc) 0

/-- Go `strings.Split s sep`: the pieces of `s` between the successive,
non-overlapping occurrences of `sep`, found from left to right; with an empty
`sep` the string is split after each character. -/
def Split (s sep : GoString) : List GoString :=
  match sep with
  | [] => s.map fun c => [c]
  | _ :: _ => splitGo sep s [] 0

/-- The scan of `strings.Replace s old new n` for a non-empty `old`: `n`
replacements are still allowed, and `skip` counts the characters of an
occurrence that was just replaced and still have to be passed over. -/
def replaceGo (old new : GoString) : GoString → Nat → Nat → GoString
  | [], _, _ => []
  | _ :: s, n, skip + 1 => replaceGo old new s n skip
  | c :: s, 0, 0 => c :: s
  | c :: s, n + 1, 0 =>
    if startsWith (c :: s) old then new ++ replaceGo old new s n (old.length - 1)
    else c :: replaceGo old new s (n + 1) 0

/-- The scan of `strings.Replace s "" new n`: the empty string is found
before the first character and after each character. -/
def insertGo (new : GoString) : GoString → Nat → GoString
  | s, 0 => s
  | [], _ + 1 => new
  | c :: s, n + 1 => new ++ c :: insertGo new s n

/-- Go `strings.Replace s old new n` for `n >= 0`: the first `n`
non-overlapping occurrences of `old` in `s`, found from left to right, are
replaced by `new`. -/
def Replace (s old new : GoString) (n : Nat) : GoString :=
  match old with
  | [] => insertGo new s n
  | _ :: _ => replaceGo old new s n 0

/-- Go `fmt.Sprintf("%s %s", a, b)`. -/
def sprintf2 (a b : GoString) : GoString := a ++ " ".toList ++ b

/-- Go `fmt.Sprintf("%s %s %s", a, b, c)`. -/
def sprintf3 (a b c : GoString) : GoString :=
  a ++ " ".toList ++ b ++ " ".toList ++ c

/-! ## Constants -/

def IconOnline : GoString := "●".toList
def IconOffline : GoString := "○".toList
def IconChannel : GoString := "#".toList
def IconGroup : GoString := "☰".toList
def IconIM : GoString := "●".toList
def IconNotification : GoString := "1".toList

def PresenceAway : GoString := "away".toList
def PresenceActive : GoString := "active".toList

/-! ## Package `service` -/

/-- Modelled from the spec: the kind of a channel.  The constants
`service.ChannelTypeChannel`, `service.ChannelTypeGroup` and
`service.ChannelTypeIM` are declared in package `service`; the spec names the
three kinds Channel, Group and DirectMessage.  `Other` stands for every value
of the field that is none of the three constants. -/
inductive ChannelType where
  | Channel
  | Group
  | IM
  | Other
  deriving DecidableEq, Repr

/-- Modelled from the spec: the record `service.Channel`, declared in package
`service`, with the fields that `channels.go` reads: the identity `ID`, the
display `Name`, the kind `Type` (here `Kind`) and, for a direct message, the
`UserID`. -/
structure Channel where
  ID : GoString
  Name : GoString
  Kind : ChannelType
  UserID : GoString
  deriving DecidableEq, Repr

/-! ## The component -/

/-- The `Channels` component: the labels of the list, the inner bounds of its
block, and the three counters. -/
structure Channels where
  /-- The labels, `c.List.Items`. -/
  Items : List GoString
  /-- The first row inside the block, `c.List.InnerBounds().Min.Y`. -/
  MinY : Int
  /-- The row after the last one inside the block, `c.List.InnerBounds().Max.Y`. -/
  MaxY : Int
  /-- Index of the channel that is selected from the list. -/
  SelectedChannel : Int
  /-- From what offset the channels are rendered. -/
  Offset : Int
  /-- The y position of the cursor. -/
  CursorPosition : Int
  deriving DecidableEq, Repr

/-- The element `items[i]` of a Go slice; `none` is the index-out-of-range
panic. -/
def index (items : List GoString) (i : Int) : Option GoString :=
  if 0 ≤ i then items[i.toNat]? else none

/-- The label of a channel: how it is displayed on screen. -/
def setChannelLabel (channel : Channel) (notification : Bool) : GoString :=
  let pre : GoString := if notification then IconNotification else " ".toList
  match channel.Kind with
  | ChannelType.Channel => sprintf3 pre IconChannel channel.Name
  | ChannelType.Group => sprintf3 pre IconGroup channel.Name
  | ChannelType.IM => sprintf3 pre IconIM channel.Name
  | ChannelType.Other => []

/-- The component as `CreateChannels` leaves it before the channels are
fetched: no label, the counters at `0`, `0` and `Min.Y`. -/
def CreateChannels (minY maxY : Int) : Channels :=
  { Items := [], MinY := minY, MaxY := maxY,
    SelectedChannel := 0, Offset := 0, CursorPosition := minY }

/-- One label is appended for each channel that the service returns. -/
def GetChannels (c : Channels) (svcChannels : List Channel) : Channels :=
  svcChannels.foldl
    (fun c slackChan => { c with Items := c.Items ++ [setChannelLabel slackChan false] }) c

def SetSelectedChannel (c : Channels) (i : Int) : Channels :=
  { c with SelectedChannel := i }

/-- Remove the notification icon in front of the selected channel. -/
def ClearNewMessageIndicator (c : Channels) : Option Channels :=
  match index c.Items c.SelectedChannel with
  | none => none
  | some item =>
    let channelName := Split item (IconNotification ++ " ".toList)
    let i := c.SelectedChannel.toNat
    if channelName.length > 1 then
      some { c with Items := c.Items.set i ("  ".toList ++ channelName.getD 1 []) }
    else
      some { c with Items := c.Items.set i (channelName.getD 0 []) }

def ScrollUp (c : Channels) : Channels :=
  if c.CursorPosition = c.MinY then
    if c.Offset > 0 then { c with Offset := c.Offset - 1 } else c
  else { c with CursorPosition := c.CursorPosition - 1 }

def ScrollDown (c : Channels) : Channels :=
  if c.CursorPosition = c.MaxY - 1 then
    if c.Offset < (c.Items.length : Int) - 1 then { c with Offset := c.Offset + 1 } else c
  else { c with CursorPosition := c.CursorPosition + 1 }

def MoveCursorUp (c : Channels) : Option Channels :=
  if c.SelectedChannel > 0 then
    ClearNewMessageIndicator (ScrollUp (SetSelectedChannel c (c.SelectedChannel - 1)))
  else some c

def MoveCursorDown (c : Channels) : Option Channels :=
  if c.SelectedChannel < (c.Items.length : Int) - 1 then
    ClearNewMessageIndicator (ScrollDown (SetSelectedChannel c (c.SelectedChannel + 1)))
  else some c

def MoveCursorTop (c : Channels) : Channels :=
  { SetSelectedChannel c 0 with CursorPosition := c.MinY, Offset := 0 }

def MoveCursorBottom (c : Channels) : Channels :=
  let c := SetSelectedChannel c ((c.Items.length : Int) - 1)
  let offset := (c.Items.length : Int) - (c.MaxY - 1)
  if offset < 0 then
    { c with Offset := 0, CursorPosition := c.SelectedChannel + 1 }
  else
    { c with Offset := offset, CursorPosition := c.MaxY - 1 }

/-- The body of the loop of `Search` at a label that contains the term, at
index `i`. -/
def jumpTo (c : Channels) (i : Int) : Channels :=
  let newPos := i
  let minRange := c.Offset
  let maxRange := c.Offset + (c.MaxY - 2)
  let c :=
    if newPos < minRange then
      let c := SetSelectedChannel c i
      { c with Offset := c.Offset - (minRange - newPos) }
    else if newPos > maxRange then
      let c := SetSelectedChannel c i
      { c with Offset := c.Offset + (newPos - maxRange) }
    else SetSelectedChannel c i
  { c with CursorPosition := (newPos - c.Offset) + 1 }

/-- The loop of `Search` over the labels that remain, the first of them at
index `i`; it stops at the first label that contains the term. -/
def searchLoop (c : Channels) (term : GoString) : List GoString → Int → Channels
  | [], _ => c
  | item :: rest, i =>
    if Contains item term then jumpTo c i else searchLoop c term rest (i + 1)

def Search (c : Channels) (term : GoString) : Channels :=
  searchLoop c term c.Items 0

/-- The first loop of `SetNotification` over the channels that remain, the
first of them at index `i`: the index of the first channel with the given ID;
when there is none, `index` keeps its zero value. -/
def notificationIndex (channelID : GoString) : List Channel → Nat → Nat
  | [], _ => 0
  | channel :: rest, i =>
    if channelID == channel.ID then i else notificationIndex channelID rest (i + 1)

/-- Render a notification icon in front of the channel name. -/
def SetNotification (c : Channels) (svcChannels : List Channel) (channelID : GoString) :
    Option Channels :=
  let index := notificationIndex channelID svcChannels 0
  match c.Items[index]? with
  | none => none
  | some item =>
    if !Contains item IconNotification then
      some { c with Items := c.Items.set index (sprintf2 IconNotification (TrimSpace item)) }
    else some c

/-- The first loop of `SetPresence` over the channels that remain, the first
of them at index `i`: the index of the first channel with the given user ID;
when there is none, `index` keeps its zero value. -/
def presenceIndex (userID : GoString) : List Channel → Nat → Nat
  | [], _ => 0
  | channel :: rest, i =>
    if userID == channel.UserID then i else presenceIndex userID rest (i + 1)

/-- Set the correct icon for an IM channel. -/
def SetPresence (c : Channels) (svcChannels : List Channel) (userID presence : GoString) :
    Option Channels :=
  let index := presenceIndex userID svcChannels 0
  match c.Items[index]? with
  | none => none
  | some item =>
    if presence == PresenceActive then
      some { c with Items := c.Items.set index (Replace item IconOffline IconOnline 1) }
    else if presence == PresenceAway then
      some { c with Items := c.Items.set index (Replace item IconOnline IconOffline 1) }
    else
      some { c with Items := c.Items.set index (Replace item IconOnline IconOffline 1) }

/-- The rows that `Buffer` draws: the labels from `Offset` on, one per screen
row from `Min.Y` down to `Max.Y - 1`; each row comes with its screen row, its
label and whether it is drawn highlighted (its row is `CursorPosition`).
Here the loop over the labels that remain, the first of them being the
`i`-th that is drawn. -/
def bufferRows (c : Channels) : List GoString → Int → List (Int × GoString × Bool)
  | [], _ => []
  | item :: rest, i =>
    let y := c.MinY + i
    if y > c.MaxY - 1 then []
    else (y, item, decide (y = c.CursorPosition)) :: bufferRows c rest (i + 1)

/-- The rows of the list as `Buffer` draws them; `none` is the panic of the
slice expression `c.List.Items[c.Offset:]` when the offset is out of range. -/
def Buffer (c : Channels) : Option (List (Int × GoString × Bool)) :=
  if 0 ≤ c.Offset ∧ c.Offset ≤ (c.Items.length : Int) then
    some (bufferRows c (c.Items.drop c.Offset.toNat) 0)
  else none

/-! ## Runs of navigation operations -/

/-- The component after `CreateChannels`, once the labels are in place:
`SelectedChannel 0`, `Offset 0`, `CursorPosition` at `Min.Y`. -/
def initialState (items : List GoString) (minY maxY : Int) : Channels :=
  { CreateChannels minY maxY with Items := items }

/-- A navigation operation of the component. -/
inductive NavOp where
  | Up
  | Down
  | Top
  | Bottom
  | Search (term : GoString)
  deriving DecidableEq, Repr

/-- One navigation operation applied to the component. -/
def applyOp (c : Channels) : NavOp → Option Channels
  | NavOp.Up => MoveCursorUp c
  | NavOp.Down => MoveCursorDown c
  | NavOp.Top => some (MoveCursorTop c)
  | NavOp.Bottom => some (MoveCursorBottom c)
  | NavOp.Search term => some (Search c term)

/-- A finite sequence of navigation operations, applied from left to right. -/
def runOps (c : Channels) : List NavOp → Option Channels
  | [] => some c
  | op :: ops => (applyOp c op).bind fun c => runOps c ops

/-- `MoveCursorDown` called `n` times in a row. -/
def moveDownTimes : Nat → Channels → Option Channels
  | 0, c => some c
  | n + 1, c => (MoveCursorDown c).bind (moveDownTimes n)

/-! ## The quantities and conditions of the specification -/

/-- The first screen row of the list. -/
def windowTop (c : Channels) : Int := c.MinY

/-- The last screen row of the list. -/
def windowBottom (c : Channels) : Int := c.MaxY - 1

/-- The viewport invariant, in the words of the specification. -/
def ViewportInvariant (c : Channels) : Prop :=
  c.SelectedChannel = c.Offset + (c.CursorPosition - windowTop c) ∧
  0 ≤ c.Offset ∧
  c.Offset + (windowBottom c - windowTop c) ≥ c.SelectedChannel ∧
  c.SelectedChannel < c.Items.length

instance (c : Channels) : Decidable (ViewportInvariant c) := by
  unfold ViewportInvariant; infer_instance

/-- The result of `moveBottom()`, in the words of the specification, with
`windowHeight = windowBottom - windowTop + 1`. -/
def MoveBottomSpec (c c' : Channels) : Prop :=
  let windowHeight := windowBottom c - windowTop c + 1
  c'.SelectedChannel = (c.Items.length : Int) - 1 ∧
  (if (c.Items.length : Int) ≤ windowHeight then
    c'.Offset = 0 ∧ c'.CursorPosition = c'.SelectedChannel + windowTop c
  else
    c'.Offset = (c.Items.length : Int) - windowHeight ∧ c'.CursorPosition = windowBottom c)

instance (c c' : Channels) : Decidable (MoveBottomSpec c c') := by
  unfold MoveBottomSpec; infer_instance

/-- The offset after `searchJump(term)` has found index `i`, in the words of
the specification. -/
def searchSpecOffset (offset windowHeight i : Int) : Int :=
  if i < offset then i
  else if i > offset + windowHeight - 2 then offset + (i - (offset + windowHeight - 2))
  else offset

/-- The result of `searchJump(term)` when `i` is the first index whose label
contains the term, in the words of the specification, with
`windowHeight = Max.Y - Min.Y`. -/
def SearchSpec (c : Channels) (i : Int) (c' : Channels) : Prop :=
  c'.SelectedChannel = i ∧
  c'.Offset = searchSpecOffset c.Offset (c.MaxY - c.MinY) i ∧
  c'.CursorPosition = (i - c'.Offset) + windowTop c

instance (c : Channels) (i : Int) (c' : Channels) : Decidable (SearchSpec c i c') := by
  unfold SearchSpec; infer_instance

/-- The search scenario of the specification: four entries, a bordered list
at the top of the screen with two visible rows, the initial counters. -/
def searchScenario : Channels :=
  initialState ["  # general".toList, "  # random".toList, "1 # ops".toList, "  ● bob".toList] 1 3

/-- Three entries in a window of three rows, the last entry selected. -/
def lastOfThree : Channels :=
  { Items := ["  # general".toList, "  # random".toList, "  # ops".toList],
    MinY := 1, MaxY := 4, SelectedChannel := 2, Offset := 0, CursorPosition := 3 }

/-- One entry in a bordered list that has no visible row
(`Min.Y = 1`, `Max.Y = 1`). -/
def noVisibleRow : Channels := initialState ["  # general".toList] 1 1

/-- Two entries in a window of three rows, the last entry selected, with a
notification pending on it. -/
def pendingLast : Channels :=
  { Items := ["  # general".toList, "1 # ops".toList],
    MinY := 1, MaxY := 4, SelectedChannel := 1, Offset := 0, CursorPosition := 2 }

/-- The state that the specification describes after `n` calls of
`moveDown()` from the initial state on the labels `items`: with
`k = min(n, len(items) - 1)`, entry `k` is selected, the cursor is on row
`min(windowTop + k, windowBottom)` and the offset is
`max(0, k - (windowBottom - windowTop))`; the list keeps its length and its
window. -/
def AfterDown (items : List GoString) (minY maxY : Int) (n : Nat) (c : Channels) : Prop :=
  c.Items.length = items.length ∧ c.MinY = minY ∧ c.MaxY = maxY ∧
  c.SelectedChannel = min (n : Int) ((items.length : Int) - 1) ∧
  c.CursorPosition = min (minY + min (n : Int) ((items.length : Int) - 1)) (maxY - 1) ∧
  c.Offset = max 0 (min (n : Int) ((items.length : Int) - 1) - ((maxY - 1) - minY))

/-- Five entries. -/
def fiveEntries : List GoString :=
  ["  # general".toList, "  # random".toList, "  # ops".toList, "  ● bob".toList,
    "  ● alice".toList]

/-- A channel list with one channel, whose name contains the character of
the notification icon followed by a space. -/
def collidingChannels : List Channel :=
  [{ ID := "C1".toList, Name := "a1 b".toList, Kind := ChannelType.Channel, UserID := [] }]

/-- The component built by `CreateChannels` and `GetChannels` for
`collidingChannels`, in a bordered list of nine rows. -/
def collidingList : Channels := GetChannels (CreateChannels 1 10) collidingChannels

/-- Two channels, and the component built for them. -/
def twoChannels : List Channel :=
  [{ ID := "C1".toList, Name := "general".toList, Kind := ChannelType.Channel, UserID := [] },
   { ID := "D1".toList, Name := "bob".toList, Kind := ChannelType.IM, UserID := "U1".toList }]

/-- The component built by `CreateChannels` and `GetChannels` for
`twoChannels`, in a bordered list of nine rows. -/
def twoChannelsList : Channels := GetChannels (CreateChannels 1 10) twoChannels

/-- The glyph of a kind of channel, in the words of the specification: "#"
for Channel, "☰" for Group, "●" for IM; no glyph is specified for another
kind. -/
def kindGlyph : ChannelType → GoString
  | ChannelType.Channel => "#".toList
  | ChannelType.Group => "☰".toList
  | ChannelType.IM => "●".toList
  | ChannelType.Other => []

/-- One direct-message channel, and a component whose only label shows it as
away, with a notification pending. -/
def bobChannels : List Channel :=
  [{ ID := "D1".toList, Name := "bob".toList, Kind := ChannelType.IM, UserID := "U1".toList }]

/-- The component for `bobChannels`, bob being away with a notification
pending. -/
def bobAway : Channels :=
  { Items := ["1 ○ bob".toList], MinY := 1, MaxY := 10,
    SelectedChannel := 0, Offset := 0, CursorPosition := 1 }

/-- The component for `bobChannels`, bob being online with no notification. -/
def bobOnline : Channels :=
  { Items := ["  ● bob".toList], MinY := 1, MaxY := 10,
    SelectedChannel := 0, Offset := 0, CursorPosition := 1 }

/-- The component with the label at index `i` replaced, everything else
being kept. -/
def withLabel (c : Channels) (i : Nat) (label : GoString) : Channels :=
  { c with Items := c.Items.set i label }

/-- The character of the icon that `SetPresence` looks for in a label: the
hollow icon for the state "active", the filled icon for every other state. -/
def replacedChar (presence : GoString) : Char :=
  if presence == PresenceActive then '○' else '●'

/-- The component for `bobChannels`, bob being away, with a label in which
the hollow icon occurs a second time. -/
def bobTwoHollow : Channels :=
  { Items := ["  ○ bob○".toList], MinY := 1, MaxY := 10,
    SelectedChannel := 0, Offset := 0, CursorPosition := 1 }

/-- What an overlay on entry `j` may change, in the words of the
specification: the three counters, the number of labels and every label
other than the one at index `j` are as before. -/
def OverlayFrame (c c' : Channels) (j : Nat) : Prop :=
  c'.SelectedChannel = c.SelectedChannel ∧ c'.Offset = c.Offset ∧
  c'.CursorPosition = c.CursorPosition ∧ c'.Items.length = c.Items.length ∧
  ∀ k : Nat, k ≠ j → c'.Items[k]? = c.Items[k]?

/-- A channel whose name contains the character of the notification icon
followed by a space. -/
def webDev : Channel :=
  { ID := "C2".toList, Name := "web1 dev".toList, Kind := ChannelType.Channel, UserID := [] }

/-- A channel list with one channel, whose name ends with the character of
the notification icon. -/
def team1Channels : List Channel :=
  [{ ID := "C1".toList, Name := "team1".toList, Kind := ChannelType.Channel, UserID := [] }]

/-- The component built by `CreateChannels` and `GetChannels` for
`team1Channels`, in a bordered list of nine rows. -/
def team1List : Channels := GetChannels (CreateChannels 1 10) team1Channels

/-- The channel "general", the first of `twoChannels`. -/
def generalChannel : Channel :=
  { ID := "C1".toList, Name := "general".toList, Kind := ChannelType.Channel, UserID := [] }

/-- The direct-message channel "bob", the second of `twoChannels`. -/
def bobChannel : Channel :=
  { ID := "D1".toList, Name := "bob".toList, Kind := ChannelType.IM, UserID := "U1".toList }

/-- The four conditions on a state that one step of the cursor preserves,
in the words of the specification: the selected index is inside the list,
the cursor is inside the window, the offset is not negative, and the
selected index is the offset plus the distance of the cursor from the top
of the window. -/
def StepConditions (c : Channels) : Prop :=
  (0 ≤ c.SelectedChannel ∧ c.SelectedChannel < c.Items.length) ∧
  (windowTop c ≤ c.CursorPosition ∧ c.CursorPosition ≤ windowBottom c) ∧
  0 ≤ c.Offset ∧
  c.SelectedChannel = c.Offset + (c.CursorPosition - windowTop c)

instance (c : Channels) : Decidable (StepConditions c) := by
  unfold StepConditions; infer_instance

/-- The state in which `MoveCursorUp` calls `ClearNewMessageIndicator`. -/
def upBeforeClear (c : Channels) : Channels :=
  ScrollUp (SetSelectedChannel c (c.SelectedChannel - 1))

/-- The state in which `MoveCursorDown` calls `ClearNewMessageIndicator`. -/
def downBeforeClear (c : Channels) : Channels :=
  ScrollDown (SetSelectedChannel c (c.SelectedChannel + 1))

/-- The selected index is one that `ClearNewMessageIndicator` can read. -/
def SelectedInRange (c : Channels) : Prop :=
  0 ≤ c.SelectedChannel ∧ c.SelectedChannel < c.Items.length

instance (c : Channels) : Decidable (SelectedInRange c) := by
  unfold SelectedInRange; infer_instance

/-- Two entries in a window of three rows, the first entry selected. -/
def firstOfTwo : Channels := initialState ["  # general".toList, "1 # ops".toList] 1 4

/-- The rows that `Buffer` draws highlighted. -/
def highlightedRows (rows : List (Int × GoString × Bool)) : List (Int × GoString × Bool) :=
  rows.filter fun row => row.2.2

/-- The invariant of a bordered list at the top of the screen
(`Min.Y = 1`) with `n` labels and the inner bound `maxY`: the list and its
window are as at the start, the selected index is the offset plus the
distance of the cursor from row 1, the cursor is on a row from 1 to
`maxY - 1`, the offset is not negative and the selected index is inside the
list. -/
def RowOneInvariant (n : Nat) (maxY : Int) (c : Channels) : Prop :=
  c.Items.length = n ∧ c.MinY = 1 ∧ c.MaxY = maxY ∧
  c.SelectedChannel = c.Offset + (c.CursorPosition - 1) ∧
  1 ≤ c.CursorPosition ∧ c.CursorPosition ≤ maxY - 1 ∧
  0 ≤ c.Offset ∧
  0 ≤ c.SelectedChannel ∧ c.SelectedChannel < n

instance (n : Nat) (maxY : Int) (c : Channels) : Decidable (RowOneInvariant n maxY c) := by
  unfold RowOneInvariant; infer_instance

end SlackTerm

namespace SlackTerm

/-! ## Navigation -/

/-- Claim C1, evaluated on a list that starts at screen row 0
(`Min.Y = 0`, `Max.Y = 3`, one label): from the initial state a single
`MoveCursorBottom` puts the cursor on row 1 with entry 0 selected and offset
0, a state in which the viewport invariant does not hold; a single
`Search` of a term that the label contains does the same. -/
theorem viewportInvariant_fails_off_row_one :
    (∃ c, runOps (initialState ["  # general".toList] 0 3) [NavOp.Bottom] = some c ∧
      c.SelectedChannel = 0 ∧ c.Offset = 0 ∧ c.CursorPosition = 1 ∧ ¬ ViewportInvariant c) ∧
    (∃ c, runOps (initialState ["  # general".toList] 0 3) [NavOp.Search "gen".toList] = some c ∧
      c.SelectedChannel = 0 ∧ c.Offset = 0 ∧ c.CursorPosition = 1 ∧ ¬ ViewportInvariant c) := by
  refine ⟨⟨_, rfl, ?_⟩, ⟨_, rfl, ?_⟩⟩ <;> decide

/-- Claim C2, evaluated on a list that starts at screen row 0
(`Min.Y = 0`, `Max.Y = 3`, window height 3): with one label
`MoveCursorBottom` sets the cursor on row 1 where the specification asks for
row 0, and with five labels it sets the offset to 3 where the specification
asks for 2. -/
theorem MoveCursorBottom_off_row_one :
    (MoveCursorBottom (initialState ["a".toList] 0 3)).CursorPosition = 1 ∧
    ¬ MoveBottomSpec (initialState ["a".toList] 0 3)
      (MoveCursorBottom (initialState ["a".toList] 0 3)) ∧
    (MoveCursorBottom (initialState (List.replicate 5 "a".toList) 0 3)).Offset = 3 ∧
    ¬ MoveBottomSpec (initialState (List.replicate 5 "a".toList) 0 3)
      (MoveCursorBottom (initialState (List.replicate 5 "a".toList) 0 3)) := by
  decide

/-- For a list whose first row is screen row 1 the result of
`MoveCursorBottom` is the one the specification describes: the constants of
the code are then the window top and the window height. -/
theorem MoveCursorBottom_row_one (c : Channels) (htop : c.MinY = 1) :
    MoveBottomSpec c (MoveCursorBottom c) := by
  simp only [MoveBottomSpec, MoveCursorBottom, SetSelectedChannel, windowTop, windowBottom, htop]
  split_ifs <;> dsimp only <;> refine ⟨?_, ?_, ?_⟩ <;> first | trivial | omega

/-! ### Package `strings` -/

/-- The function `startsWith` decides whether a string is a prefix of another. -/
theorem startsWith_iff : ∀ (s p : GoString), startsWith s p = true ↔ p <+: s
  | _, [] => by simp [startsWith]
  | [], _ :: _ => by simp [startsWith]
  | c :: s, d :: p => by
    simp only [startsWith, Bool.and_eq_true, beq_iff_eq, startsWith_iff s p, List.cons_prefix_cons]
    constructor
    · rintro ⟨h, hp⟩; exact ⟨h.symm, hp⟩
    · rintro ⟨h, hp⟩; exact ⟨h.symm, hp⟩

/-- The function `Contains` decides whether a string occurs inside another. -/
theorem Contains_iff (substr : GoString) :
    ∀ s : GoString, Contains s substr = true ↔ substr <:+: s
  | [] => by simp [Contains, startsWith_iff]
  | c :: s => by
    simp only [Contains, Bool.or_eq_true, startsWith_iff, Contains_iff substr s,
      List.infix_cons_iff]

/-! ### Search -/

theorem jumpTo_Items (c : Channels) (i : Int) : (jumpTo c i).Items = c.Items := by
  simp only [jumpTo, SetSelectedChannel]
  split_ifs <;> rfl

/-- A loop over labels none of which contains the term changes nothing. -/
theorem searchLoop_miss (c : Channels) (term : GoString) :
    ∀ (items : List GoString) (k : Int),
      (∀ item ∈ items, Contains item term = false) → searchLoop c term items k = c := by
  intro items
  induction items with
  | nil => intro k _; rfl
  | cons a rest ih =>
    intro k h
    have ha : Contains a term = false := h a (List.mem_cons_self a rest)
    simp only [searchLoop, ha]
    exact ih (k + 1) fun item hm => h item (List.mem_cons_of_mem a hm)

/-- The loop jumps to the first label that contains the term. -/
theorem searchLoop_first (c : Channels) (term : GoString) :
    ∀ (items : List GoString) (k : Int) (i : Nat) (item : GoString),
      items[i]? = some item → Contains item term = true →
      (∀ (j : Nat) (other : GoString), j < i → items[j]? = some other →
        Contains other term = false) →
      searchLoop c term items k = jumpTo c (k + i) := by
  intro items
  induction items with
  | nil => intro k i item h; simp at h
  | cons a rest ih =>
    intro k i item hi hc hmin
    cases i with
    | zero =>
      simp only [List.getElem?_cons_zero, Option.some.injEq] at hi
      subst hi
      simp [searchLoop, hc]
    | succ i =>
      have ha : Contains a term = false := hmin 0 a (Nat.succ_pos i) (by simp)
      simp only [List.getElem?_cons_succ] at hi
      simp only [searchLoop, ha]
      have hk : k + 1 + (i : Int) = k + ((i + 1 : Nat) : Int) := by push_cast; ring
      rw [ih (k + 1) i item hi hc fun j other hj ho =>
        hmin (j + 1) other (Nat.succ_lt_succ hj) (by simpa using ho), hk]
      simp

/-- What the loop does depends on the labels only: it leaves every state
alone, or it jumps, from every state, to one and the same index. -/
theorem searchLoop_cases (term : GoString) :
    ∀ (items : List GoString) (k : Int),
      (∀ c : Channels, searchLoop c term items k = c) ∨
      ∃ i : Nat, ∀ c : Channels, searchLoop c term items k = jumpTo c (k + i) := by
  intro items
  induction items with
  | nil => intro k; exact Or.inl fun c => rfl
  | cons a rest ih =>
    intro k
    by_cases ha : Contains a term = true
    · exact Or.inr ⟨0, fun c => by simp [searchLoop, ha]⟩
    · have ha' : Contains a term = false := by simpa using ha
      rcases ih (k + 1) with h | ⟨i, h⟩
      · exact Or.inl fun c => by simp only [searchLoop, ha']; exact h c
      · refine Or.inr ⟨i + 1, fun c => ?_⟩
        have hk : k + 1 + (i : Int) = k + ((i + 1 : Nat) : Int) := by push_cast; ring
        simp only [searchLoop, ha']
        rw [h c, hk]
        simp

/-- Jumping twice to the same index is jumping once, when `Max.Y` is at
least 2. -/
theorem jumpTo_idem (c : Channels) (i : Int) (h : 2 ≤ c.MaxY) :
    jumpTo (jumpTo c i) i = jumpTo c i := by
  simp only [jumpTo, SetSelectedChannel]
  split_ifs <;> dsimp only at * <;> first | rfl | omega

/-- Claim C3, as stated, on the search scenario of the specification (four
entries, `offset = 0`, two visible rows): index 2 is the first whose label
contains "ops", and `Search` ends with `SelectedChannel 2`, `Offset 1`,
`CursorPosition` on the second row, as the scenario says; the offset that
the stated rule `i > Offset + windowHeight - 2` gives is 2. -/
theorem Search_stated_offset_counterexample :
    Contains "  # general".toList "ops".toList = false ∧
    Contains "  # random".toList "ops".toList = false ∧
    Contains "1 # ops".toList "ops".toList = true ∧
    (Search searchScenario "ops".toList).SelectedChannel = 2 ∧
    (Search searchScenario "ops".toList).Offset = 1 ∧
    (Search searchScenario "ops".toList).CursorPosition = windowTop searchScenario + 1 ∧
    searchSpecOffset searchScenario.Offset (searchScenario.MaxY - searchScenario.MinY) 2 = 2 ∧
    ¬ SearchSpec searchScenario 2 (Search searchScenario "ops".toList) := by
  decide

/-- Claim C3, amended: for a list whose first row is screen row 1
(`windowTop = Min.Y = 1`, `windowHeight = Max.Y - Min.Y`), when `i` is the
least index whose label contains the term, `Search` selects `i`; the new
offset is `i` if `i < Offset`, is
`Offset + (i - (Offset + windowHeight - 1))` if
`i > Offset + windowHeight - 1`, and is the old offset otherwise; and the
cursor is on row `(i - newOffset) + windowTop`. -/
theorem Search_match (c : Channels) (term item : GoString) (i : Nat)
    (htop : c.MinY = 1)
    (hi : c.Items[i]? = some item) (hc : Contains item term = true)
    (hleast : ∀ (j : Nat) (other : GoString), j < i → c.Items[j]? = some other →
      Contains other term = false) :
    (Search c term).SelectedChannel = i ∧
    (Search c term).Offset =
      (if (i : Int) < c.Offset then (i : Int)
       else if (i : Int) > c.Offset + (c.MaxY - c.MinY) - 1 then
         c.Offset + ((i : Int) - (c.Offset + (c.MaxY - c.MinY) - 1))
       else c.Offset) ∧
    (Search c term).CursorPosition = ((i : Int) - (Search c term).Offset) + windowTop c := by
  have hs : Search c term = jumpTo c i := by
    unfold Search
    rw [searchLoop_first c term c.Items 0 i item hi hc hleast]
    simp
  rw [hs]
  simp only [jumpTo, SetSelectedChannel, windowTop, htop]
  split_ifs <;> dsimp only <;> refine ⟨?_, ?_, ?_⟩ <;> first | trivial | omega

/-- The amended claim C3 on the search scenario of the specification. -/
theorem Search_match_witness :
    searchScenario.MinY = 1 ∧
    (Search searchScenario "ops".toList).SelectedChannel = (2 : Nat) ∧
    (Search searchScenario "ops".toList).Offset =
      (if ((2 : Nat) : Int) < searchScenario.Offset then ((2 : Nat) : Int)
       else if ((2 : Nat) : Int) > searchScenario.Offset +
           (searchScenario.MaxY - searchScenario.MinY) - 1 then
         searchScenario.Offset + (((2 : Nat) : Int) - (searchScenario.Offset +
           (searchScenario.MaxY - searchScenario.MinY) - 1))
       else searchScenario.Offset) ∧
    (Search searchScenario "ops".toList).CursorPosition =
      (((2 : Nat) : Int) - (Search searchScenario "ops".toList).Offset) +
        windowTop searchScenario :=
  ⟨by decide, Search_match searchScenario "ops".toList "1 # ops".toList 2 (by decide)
    (by decide) (by decide) (by
      intro j other hj ho
      have hj' : j = 0 ∨ j = 1 := by omega
      rcases hj' with rfl | rfl
      · have : other = "  # general".toList := by
          simpa [searchScenario, initialState] using ho.symm
        subst this; decide
      · have : other = "  # random".toList := by
          simpa [searchScenario, initialState] using ho.symm
        subst this; decide)⟩

/-- Claim C6: when no label contains the term, `Search` leaves the selected
channel, the offset, the cursor position and every label unchanged. -/
theorem Search_miss (c : Channels) (term : GoString)
    (h : ∀ item ∈ c.Items, Contains item term = false) : Search c term = c :=
  searchLoop_miss c term c.Items 0 h

/-- Claim C6 on the search scenario: no label contains "xyz". -/
theorem Search_miss_witness :
    (∀ item ∈ searchScenario.Items, Contains item "xyz".toList = false) ∧
    Search searchScenario "xyz".toList = searchScenario :=
  ⟨by decide, Search_miss searchScenario "xyz".toList (by decide)⟩

/-- Claim C7, as stated, on three entries with the last one selected: the
empty term is contained in the first label, and `Search` of the empty term
moves the selection from entry 2 to entry 0 and the cursor from row 3 to
row 1. -/
theorem Search_empty_term_counterexample :
    Contains "  # general".toList "".toList = true ∧
    lastOfThree.SelectedChannel = 2 ∧ lastOfThree.CursorPosition = 3 ∧
    (Search lastOfThree "".toList).SelectedChannel = 0 ∧
    (Search lastOfThree "".toList).CursorPosition = 1 := by
  decide

/-- Claim C7, amended: the empty term is contained in every label, so on a
non-empty label list `Search` of the empty term performs the jump of
`Search` to index 0 and selects entry 0, leaving the labels alone; on an
empty label list it leaves the state unchanged. -/
theorem Search_empty_term (c : Channels) :
    (c.Items = [] → Search c [] = c) ∧
    (c.Items ≠ [] → Search c [] = jumpTo c 0 ∧
      (Search c []).SelectedChannel = 0 ∧ (Search c []).Items = c.Items) := by
  constructor
  · intro h
    simp [Search, h, searchLoop]
  · intro h
    have hs : Search c [] = jumpTo c 0 := by
      unfold Search
      cases hitems : c.Items with
      | nil => exact absurd hitems h
      | cons a rest => cases a <;> simp [searchLoop, Contains, startsWith]
    refine ⟨hs, ?_, ?_⟩
    · rw [hs]
      simp only [jumpTo, SetSelectedChannel]
      split_ifs <;> rfl
    · rw [hs, jumpTo_Items]

/-- The amended claim C7 on an empty list and on three entries. -/
theorem Search_empty_term_witness :
    (initialState [] 1 4).Items = [] ∧
    Search (initialState [] 1 4) [] = initialState [] 1 4 ∧
    lastOfThree.Items ≠ [] ∧
    Search lastOfThree [] = jumpTo lastOfThree 0 ∧
    (Search lastOfThree []).SelectedChannel = 0 ∧
    (Search lastOfThree []).Items = lastOfThree.Items :=
  ⟨rfl, (Search_empty_term (initialState [] 1 4)).1 rfl, by decide,
    (Search_empty_term lastOfThree).2 (by decide)⟩

/-- Claim C8, as stated, on a bordered list without a visible row
(`Max.Y = 1`): the first `Search` moves the offset to 1 and the cursor to
row 0, the second one moves them back to 0 and row 1. -/
theorem Search_twice_counterexample :
    (Search noVisibleRow "gen".toList).Offset = 1 ∧
    (Search noVisibleRow "gen".toList).CursorPosition = 0 ∧
    (Search (Search noVisibleRow "gen".toList) "gen".toList).Offset = 0 ∧
    (Search (Search noVisibleRow "gen".toList) "gen".toList).CursorPosition = 1 ∧
    Search (Search noVisibleRow "gen".toList) "gen".toList ≠
      Search noVisibleRow "gen".toList := by
  decide

/-- Claim C8, amended: for every label list, every state, every term and
every window with `Max.Y` at least 2, the state after `Search` followed by
the same `Search` is the state after a single `Search`. -/
theorem Search_idempotent (c : Channels) (term : GoString) (h : 2 ≤ c.MaxY) :
    Search (Search c term) term = Search c term := by
  unfold Search
  rcases searchLoop_cases term c.Items 0 with hmiss | ⟨i, hjump⟩
  · rw [hmiss c, hmiss c]
  · rw [hjump c, jumpTo_Items, hjump (jumpTo c (0 + i))]
    exact jumpTo_idem c (0 + i) h

/-- The amended claim C8 on the search scenario of the specification. -/
theorem Search_idempotent_witness :
    2 ≤ searchScenario.MaxY ∧
    Search (Search searchScenario "ops".toList) "ops".toList =
      Search searchScenario "ops".toList :=
  ⟨by decide, Search_idempotent searchScenario "ops".toList (by decide)⟩

/-! ### The ends of the list -/

/-- Claim C5: `MoveCursorUp` with entry 0 selected and `MoveCursorDown`
with the last entry selected leave the selected channel, the offset, the
cursor position and every label unchanged, whatever the offset, the cursor
position and the window are. -/
theorem MoveCursor_boundary (c : Channels) :
    (c.SelectedChannel = 0 → MoveCursorUp c = some c) ∧
    (c.SelectedChannel = (c.Items.length : Int) - 1 → MoveCursorDown c = some c) := by
  constructor
  · intro h
    simp [MoveCursorUp, h]
  · intro h
    simp [MoveCursorDown, h]

/-- Claim C5 at the top of the search scenario and at the bottom of a list
whose last entry has a notification pending. -/
theorem MoveCursor_boundary_witness :
    searchScenario.SelectedChannel = 0 ∧
    MoveCursorUp searchScenario = some searchScenario ∧
    pendingLast.SelectedChannel = (pendingLast.Items.length : Int) - 1 ∧
    MoveCursorDown pendingLast = some pendingLast :=
  ⟨rfl, (MoveCursor_boundary searchScenario).1 rfl, by decide,
    (MoveCursor_boundary pendingLast).2 (by decide)⟩

/-! ### Moving down -/

/-- With the selected index inside the list, `ClearNewMessageIndicator`
returns, and it changes nothing but the text of labels. -/
theorem ClearNewMessageIndicator_some (c : Channels) (h0 : 0 ≤ c.SelectedChannel)
    (h1 : c.SelectedChannel < c.Items.length) :
    ∃ c', ClearNewMessageIndicator c = some c' ∧ c'.Items.length = c.Items.length ∧
      c'.MinY = c.MinY ∧ c'.MaxY = c.MaxY ∧ c'.SelectedChannel = c.SelectedChannel ∧
      c'.Offset = c.Offset ∧ c'.CursorPosition = c.CursorPosition := by
  have hlt : c.SelectedChannel.toNat < c.Items.length := by omega
  have hget : index c.Items c.SelectedChannel = some (c.Items[c.SelectedChannel.toNat]) := by
    simp [index, h0, List.getElem?_eq_getElem hlt]
  unfold ClearNewMessageIndicator
  rw [hget]
  dsimp only
  split_ifs
  · exact ⟨_, rfl, by simp, rfl, rfl, rfl, rfl, rfl⟩
  · exact ⟨_, rfl, by simp, rfl, rfl, rfl, rfl, rfl⟩

/-- One more `MoveCursorDown` takes the state after `n` calls to the state
after `n + 1` calls. -/
theorem MoveCursorDown_AfterDown (items : List GoString) (minY maxY : Int) (n : Nat)
    (c : Channels) (hne : items ≠ []) (hwin : minY ≤ maxY - 1)
    (h : AfterDown items minY maxY n c) :
    ∃ c', MoveCursorDown c = some c' ∧ AfterDown items minY maxY (n + 1) c' := by
  obtain ⟨hlen, hmin, hmax, hsel, hcur, hoff⟩ := h
  have hpos : 0 < items.length := List.length_pos.mpr hne
  unfold MoveCursorDown
  by_cases hlast : c.SelectedChannel < (c.Items.length : Int) - 1
  · rw [if_pos hlast]
    have hfields : (ScrollDown (SetSelectedChannel c (c.SelectedChannel + 1))).Items = c.Items ∧
        (ScrollDown (SetSelectedChannel c (c.SelectedChannel + 1))).MinY = c.MinY ∧
        (ScrollDown (SetSelectedChannel c (c.SelectedChannel + 1))).MaxY = c.MaxY ∧
        (ScrollDown (SetSelectedChannel c (c.SelectedChannel + 1))).SelectedChannel =
          c.SelectedChannel + 1 := by
      simp only [ScrollDown, SetSelectedChannel]
      split_ifs <;> exact ⟨rfl, rfl, rfl, rfl⟩
    obtain ⟨hI, hMin, hMax, hS⟩ := hfields
    obtain ⟨c', hc', hlen', hmin', hmax', hsel', hoff', hcur'⟩ :=
      ClearNewMessageIndicator_some (ScrollDown (SetSelectedChannel c (c.SelectedChannel + 1)))
        (by rw [hS]; omega) (by rw [hS, hI]; omega)
    refine ⟨c', hc', ?_⟩
    have hO : c'.Offset = (ScrollDown (SetSelectedChannel c (c.SelectedChannel + 1))).Offset :=
      hoff'
    have hC : c'.CursorPosition =
        (ScrollDown (SetSelectedChannel c (c.SelectedChannel + 1))).CursorPosition := hcur'
    simp only [ScrollDown, SetSelectedChannel] at hO hC
    refine ⟨by rw [hlen', hI, hlen], by rw [hmin', hMin, hmin], by rw [hmax', hMax, hmax],
      ?_, ?_, ?_⟩
    · rw [hsel', hS]; push_cast; omega
    · rw [hC]; push_cast; split_ifs <;> dsimp only <;> omega
    · rw [hO]; push_cast; split_ifs <;> dsimp only <;> omega
  · rw [if_neg hlast]
    refine ⟨c, rfl, hlen, hmin, hmax, ?_, ?_, ?_⟩
    · push_cast; omega
    · push_cast; omega
    · push_cast; omega

/-- Further `n` calls of `MoveCursorDown` take the state after `m` calls to
the state after `m + n` calls. -/
theorem moveDownTimes_AfterDown (items : List GoString) (minY maxY : Int)
    (hne : items ≠ []) (hwin : minY ≤ maxY - 1) :
    ∀ (n m : Nat) (c : Channels), AfterDown items minY maxY m c →
      ∃ c', moveDownTimes n c = some c' ∧ AfterDown items minY maxY (m + n) c' := by
  intro n
  induction n with
  | zero => intro m c h; exact ⟨c, rfl, h⟩
  | succ n ih =>
    intro m c h
    obtain ⟨c1, hc1, h1⟩ := MoveCursorDown_AfterDown items minY maxY m c hne hwin h
    obtain ⟨c2, hc2, h2⟩ := ih (m + 1) c1 h1
    refine ⟨c2, ?_, ?_⟩
    · simp [moveDownTimes, hc1, hc2]
    · have hmn : m + (n + 1) = m + 1 + n := by omega
      rw [hmn]; exact h2

/-- Claim C4: for a non-empty label list and a window with
`windowTop <= windowBottom`, `n` calls of `MoveCursorDown` from the initial
state return, and with `k = min(n, len(Items) - 1)` they end with
`SelectedChannel = k`, `CursorPosition = min(windowTop + k, windowBottom)`
and `Offset = max(0, k - (windowBottom - windowTop))`. -/
theorem MoveCursorDown_repeated (items : List GoString) (minY maxY : Int) (n : Nat)
    (hne : items ≠ []) (hwin : minY ≤ maxY - 1) :
    ∃ c, moveDownTimes n (initialState items minY maxY) = some c ∧
      c.SelectedChannel = min (n : Int) ((items.length : Int) - 1) ∧
      c.CursorPosition = min (minY + min (n : Int) ((items.length : Int) - 1)) (maxY - 1) ∧
      c.Offset = max 0 (min (n : Int) ((items.length : Int) - 1) - ((maxY - 1) - minY)) := by
  have hpos : 0 < items.length := List.length_pos.mpr hne
  have h0 : AfterDown items minY maxY 0 (initialState items minY maxY) := by
    refine ⟨rfl, rfl, rfl, ?_, ?_, ?_⟩ <;>
      simp only [initialState, CreateChannels] <;> push_cast <;> omega
  obtain ⟨c, hc, _, _, _, hsel, hcur, hoff⟩ :=
    moveDownTimes_AfterDown items minY maxY hne hwin n 0 (initialState items minY maxY) h0
  exact ⟨c, hc, by simpa using hsel, by simpa using hcur, by simpa using hoff⟩

/-- Claim C4 on the scenario of the specification: five entries,
`windowTop = 0`, `windowBottom = 2`, four calls. -/
theorem MoveCursorDown_repeated_witness :
    fiveEntries ≠ [] ∧ (0 : Int) ≤ 3 - 1 ∧
    ∃ c, moveDownTimes 4 (initialState fiveEntries 0 3) = some c ∧
      c.SelectedChannel = min ((4 : Nat) : Int) ((fiveEntries.length : Int) - 1) ∧
      c.CursorPosition =
        min (0 + min ((4 : Nat) : Int) ((fiveEntries.length : Int) - 1)) (3 - 1) ∧
      c.Offset = max 0 (min ((4 : Nat) : Int) ((fiveEntries.length : Int) - 1) - ((3 - 1) - 0)) :=
  ⟨by decide, by decide, MoveCursorDown_repeated fiveEntries 0 3 4 (by decide) (by decide)⟩

/-- The scenario of the specification, evaluated: four calls of
`MoveCursorDown` on five entries end with `{selected 4, offset 2, cursor 2}`. -/
theorem MoveCursorDown_scenario :
    moveDownTimes 4 (initialState fiveEntries 0 3) =
      some { Items := fiveEntries, MinY := 0, MaxY := 3,
             SelectedChannel := 4, Offset := 2, CursorPosition := 2 } := by
  decide

/-! ## Notifications -/

/-- Claim C9, evaluated on a channel named "a1 b": its label is built as
"  # a1 b"; `SetNotification` leaves it as it is, because the label already
contains the character of the icon; `ClearNewMessageIndicator` on that entry
then cuts the label at "1 " and leaves "  b", which is not the label before
`SetNotification`. -/
theorem notification_round_trip_fails :
    collidingList.Items = ["  # a1 b".toList] ∧
    SetNotification collidingList collidingChannels "C1".toList = some collidingList ∧
    ClearNewMessageIndicator (SetSelectedChannel collidingList 0) =
      some { collidingList with Items := ["  b".toList] } := by
  decide

/-- The index computed by the first loop of `SetNotification` is `0` or the
index of one of the channels. -/
theorem notificationIndex_bound (channelID : GoString) :
    ∀ (svcChannels : List Channel) (k : Nat),
      notificationIndex channelID svcChannels k = 0 ∨
      notificationIndex channelID svcChannels k < k + svcChannels.length := by
  intro svcChannels
  induction svcChannels with
  | nil => intro k; exact Or.inl rfl
  | cons channel rest ih =>
    intro k
    simp only [notificationIndex]
    split_ifs
    · right; simp
    · rcases ih (k + 1) with h | h
      · exact Or.inl h
      · right; simp only [List.length_cons]; omega

/-- A label that `SetNotification` has written contains the icon. -/
theorem Contains_sprintf2_IconNotification (s : GoString) :
    Contains (sprintf2 IconNotification s) IconNotification = true := by
  show Contains ('1' :: ' ' :: s) ['1'] = true
  simp [Contains, startsWith]

/-- Claim C10: for a non-empty label list of the same length as the channel
list and every channel ID, `SetNotification` returns, and a second call right
after it changes nothing: the labels after two calls are the labels after
one call. -/
theorem SetNotification_idempotent (c : Channels) (svcChannels : List Channel)
    (channelID : GoString) (hne : c.Items ≠ []) (hlen : c.Items.length = svcChannels.length) :
    ∃ c1, SetNotification c svcChannels channelID = some c1 ∧
      SetNotification c1 svcChannels channelID = some c1 := by
  have hpos : 0 < c.Items.length := List.length_pos.mpr hne
  have hlt : notificationIndex channelID svcChannels 0 < c.Items.length := by
    rcases notificationIndex_bound channelID svcChannels 0 with h | h <;> omega
  have hget : c.Items[notificationIndex channelID svcChannels 0]? =
      some (c.Items[notificationIndex channelID svcChannels 0]) :=
    List.getElem?_eq_getElem hlt
  by_cases hc : Contains (c.Items[notificationIndex channelID svcChannels 0]) IconNotification
      = true
  · have h1 : SetNotification c svcChannels channelID = some c := by
      simp [SetNotification, hget, hc]
    exact ⟨c, h1, h1⟩
  · refine ⟨_, by simp only [SetNotification, hget]; rw [if_pos (by simpa using hc)], ?_⟩
    simp only [SetNotification]
    rw [List.getElem?_set_self hlt]
    simp [Contains_sprintf2_IconNotification]

/-- Claim C10 on two channels: two calls of `SetNotification` for the first
one. -/
theorem SetNotification_idempotent_witness :
    twoChannelsList.Items ≠ [] ∧ twoChannelsList.Items.length = twoChannels.length ∧
    ∃ c1, SetNotification twoChannelsList twoChannels "C1".toList = some c1 ∧
      SetNotification c1 twoChannels "C1".toList = some c1 :=
  ⟨by decide, by decide,
    SetNotification_idempotent twoChannelsList twoChannels "C1".toList (by decide) (by decide)⟩

/-- Two calls of `SetNotification`, evaluated: the icon is written once. -/
theorem SetNotification_twice_scenario :
    (SetNotification twoChannelsList twoChannels "C1".toList).map (fun c => c.Items) =
      some ["1 # general".toList, "  ● bob".toList] ∧
    ((SetNotification twoChannelsList twoChannels "C1".toList).bind fun c =>
      SetNotification c twoChannels "C1".toList).map (fun c => c.Items) =
      some ["1 # general".toList, "  ● bob".toList] := by
  decide

/-! ## The entry store -/

/-- The loop of `GetChannels` appends the labels of the channels, in their
order, and touches nothing else. -/
theorem GetChannels_eq : ∀ (svcChannels : List Channel) (c : Channels),
    GetChannels c svcChannels =
      { c with Items := c.Items ++ svcChannels.map fun ch => setChannelLabel ch false }
  | [], c => by simp [GetChannels]
  | ch :: rest, c => by
    have h := GetChannels_eq rest { c with Items := c.Items ++ [setChannelLabel ch false] }
    simp only [GetChannels, List.foldl_cons] at h ⊢
    rw [h]
    simp

/-- Claim C17: for channels of kind Channel, Group or IM, `GetChannels` on
an empty list produces exactly one label per channel, in the order of the
enumeration, and the label of a channel is
`" " + " " + glyph + " " + name`, with the glyph "#" for Channel, "☰" for
Group and "●" for IM. -/
theorem GetChannels_labels (minY maxY : Int) (svcChannels : List Channel)
    (hkind : ∀ ch ∈ svcChannels, ch.Kind = ChannelType.Channel ∨
      ch.Kind = ChannelType.Group ∨ ch.Kind = ChannelType.IM) :
    (GetChannels (CreateChannels minY maxY) svcChannels).Items =
      svcChannels.map fun ch =>
        " ".toList ++ " ".toList ++ kindGlyph ch.Kind ++ " ".toList ++ ch.Name := by
  rw [GetChannels_eq]
  simp only [CreateChannels, List.nil_append]
  apply List.map_congr_left
  intro ch hch
  rcases hkind ch hch with h | h | h <;>
    simp [setChannelLabel, sprintf3, kindGlyph, h, IconChannel, IconGroup, IconIM]

/-- Claim C17 on two channels, a channel and a direct message. -/
theorem GetChannels_labels_witness :
    (∀ ch ∈ twoChannels, ch.Kind = ChannelType.Channel ∨
      ch.Kind = ChannelType.Group ∨ ch.Kind = ChannelType.IM) ∧
    (GetChannels (CreateChannels 1 10) twoChannels).Items =
      twoChannels.map fun ch =>
        " ".toList ++ " ".toList ++ kindGlyph ch.Kind ++ " ".toList ++ ch.Name :=
  ⟨by decide, GetChannels_labels 1 10 twoChannels (by decide)⟩

/-- The labels of two channels, evaluated. -/
theorem GetChannels_scenario :
    twoChannelsList.Items = ["  # general".toList, "  ● bob".toList] := by
  decide

/-! ## Presence -/

theorem set_of_getElem? {α : Type} :
    ∀ (l : List α) (i : Nat) (a : α), l[i]? = some a → l.set i a = l
  | [], _, _, h => by simp at h
  | b :: l, 0, a, h => by simp at h; simp [h]
  | b :: l, i + 1, a, h => by
    simp only [List.getElem?_cons_succ] at h
    simp [set_of_getElem? l i a h]

theorem lt_of_getElem? {α : Type} (l : List α) (i : Nat) (a : α) (h : l[i]? = some a) :
    i < l.length := by
  by_contra hn
  rw [List.getElem?_eq_none (by omega)] at h
  exact absurd h (by simp)

theorem withLabel_get (c : Channels) (i : Nat) (label : GoString) (hlt : i < c.Items.length) :
    (withLabel c i label).Items[i]? = some label := by
  simp [withLabel, List.getElem?_set_self hlt]

theorem withLabel_withLabel (c : Channels) (i : Nat) (a b : GoString) :
    withLabel (withLabel c i a) i b = withLabel c i b := by
  simp [withLabel, List.set_set]

theorem withLabel_self (c : Channels) (i : Nat) (a : GoString) (h : c.Items[i]? = some a) :
    withLabel c i a = c := by
  simp [withLabel, set_of_getElem? c.Items i a h]

/-- With the state "active", `SetPresence` replaces the first hollow icon of
the label at the index it computes. -/
theorem SetPresence_active (c : Channels) (svcChannels : List Channel) (userID item : GoString)
    (h : c.Items[presenceIndex userID svcChannels 0]? = some item) :
    SetPresence c svcChannels userID PresenceActive =
      some (withLabel c (presenceIndex userID svcChannels 0)
        (Replace item IconOffline IconOnline 1)) := by
  have hact : (PresenceActive == PresenceActive) = true := by decide
  simp only [SetPresence, withLabel, h, hact, if_true]

/-- With a state other than "active", `SetPresence` replaces the first filled
icon of the label at the index it computes. -/
theorem SetPresence_other (c : Channels) (svcChannels : List Channel)
    (userID presence item : GoString) (hp : presence ≠ PresenceActive)
    (h : c.Items[presenceIndex userID svcChannels 0]? = some item) :
    SetPresence c svcChannels userID presence =
      some (withLabel c (presenceIndex userID svcChannels 0)
        (Replace item IconOnline IconOffline 1)) := by
  have hact : (presence == PresenceActive) = false := by simpa using hp
  simp only [SetPresence, withLabel, h, hact, Bool.false_eq_true, if_false, ite_self]

theorem Replace_offline (slot : Char) (name : GoString) (hslot : slot = ' ' ∨ slot = '1') :
    Replace (slot :: " ○ ".toList ++ name) IconOffline IconOnline 1 =
      slot :: " ● ".toList ++ name := by
  show Replace (slot :: ' ' :: '○' :: ' ' :: name) ['○'] ['●'] 1 =
    slot :: ' ' :: '●' :: ' ' :: name
  rcases hslot with rfl | rfl <;> simp [Replace, replaceGo, startsWith]

theorem Replace_online (slot : Char) (name : GoString) (hslot : slot = ' ' ∨ slot = '1') :
    Replace (slot :: " ● ".toList ++ name) IconOnline IconOffline 1 =
      slot :: " ○ ".toList ++ name := by
  show Replace (slot :: ' ' :: '●' :: ' ' :: name) ['●'] ['○'] 1 =
    slot :: ' ' :: '○' :: ' ' :: name
  rcases hslot with rfl | rfl <;> simp [Replace, replaceGo, startsWith]

/-- Claim C18: for every name and every slot character among " " and "1",
`SetPresence` with "active" on the label `slot + " ○ " + name` yields
exactly `slot + " ● " + name`, and with "away" on `slot + " ● " + name` it
yields exactly `slot + " ○ " + name`; in both cases the opposite call right
after it restores the component, and the slot character stays in place. -/
theorem SetPresence_swap (c : Channels) (svcChannels : List Channel) (userID : GoString)
    (slot : Char) (name : GoString) (hslot : slot = ' ' ∨ slot = '1') :
    (c.Items[presenceIndex userID svcChannels 0]? = some (slot :: " ○ ".toList ++ name) →
      SetPresence c svcChannels userID PresenceActive =
        some (withLabel c (presenceIndex userID svcChannels 0)
          (slot :: " ● ".toList ++ name)) ∧
      ((SetPresence c svcChannels userID PresenceActive).bind fun c =>
        SetPresence c svcChannels userID PresenceAway) = some c) ∧
    (c.Items[presenceIndex userID svcChannels 0]? = some (slot :: " ● ".toList ++ name) →
      SetPresence c svcChannels userID PresenceAway =
        some (withLabel c (presenceIndex userID svcChannels 0)
          (slot :: " ○ ".toList ++ name)) ∧
      ((SetPresence c svcChannels userID PresenceAway).bind fun c =>
        SetPresence c svcChannels userID PresenceActive) = some c) := by
  have haway : PresenceAway ≠ PresenceActive := by decide
  constructor
  · intro h
    have hlt := lt_of_getElem? _ _ _ h
    have h1 := SetPresence_active c svcChannels userID _ h
    rw [Replace_offline slot name hslot] at h1
    refine ⟨h1, ?_⟩
    rw [h1, Option.some_bind,
      SetPresence_other _ svcChannels userID PresenceAway _ haway (withLabel_get c _ _ hlt),
      Replace_online slot name hslot, withLabel_withLabel, withLabel_self c _ _ h]
  · intro h
    have hlt := lt_of_getElem? _ _ _ h
    have h1 := SetPresence_other c svcChannels userID PresenceAway _ haway h
    rw [Replace_online slot name hslot] at h1
    refine ⟨h1, ?_⟩
    rw [h1, Option.some_bind,
      SetPresence_active _ svcChannels userID _ (withLabel_get c _ _ hlt),
      Replace_offline slot name hslot, withLabel_withLabel, withLabel_self c _ _ h]

/-- Claim C18 on bob, away with a notification pending, and on bob, online
with no notification. -/
theorem SetPresence_swap_witness :
    ('1' = ' ' ∨ '1' = '1') ∧
    bobAway.Items[presenceIndex "U1".toList bobChannels 0]? =
      some ('1' :: " ○ ".toList ++ "bob".toList) ∧
    (SetPresence bobAway bobChannels "U1".toList PresenceActive =
        some (withLabel bobAway (presenceIndex "U1".toList bobChannels 0)
          ('1' :: " ● ".toList ++ "bob".toList)) ∧
      ((SetPresence bobAway bobChannels "U1".toList PresenceActive).bind fun c =>
        SetPresence c bobChannels "U1".toList PresenceAway) = some bobAway) ∧
    (' ' = ' ' ∨ ' ' = '1') ∧
    bobOnline.Items[presenceIndex "U1".toList bobChannels 0]? =
      some (' ' :: " ● ".toList ++ "bob".toList) ∧
    (SetPresence bobOnline bobChannels "U1".toList PresenceAway =
        some (withLabel bobOnline (presenceIndex "U1".toList bobChannels 0)
          (' ' :: " ○ ".toList ++ "bob".toList)) ∧
      ((SetPresence bobOnline bobChannels "U1".toList PresenceAway).bind fun c =>
        SetPresence c bobChannels "U1".toList PresenceActive) = some bobOnline) :=
  ⟨by decide, by decide,
    (SetPresence_swap bobAway bobChannels "U1".toList '1' "bob".toList (by decide)).1
      (by decide),
    by decide, by decide,
    (SetPresence_swap bobOnline bobChannels "U1".toList ' ' "bob".toList (by decide)).2
      (by decide)⟩

/-- The presence scenario, evaluated: the hollow icon of an away user becomes
the filled one, the rest of the label staying as it is. -/
theorem SetPresence_scenario :
    (SetPresence bobAway bobChannels "U1".toList PresenceActive).map (fun c => c.Items) =
      some ["1 ● bob".toList] := by
  decide

theorem replaceGo_zero (old new : GoString) (s : GoString) : replaceGo old new s 0 0 = s := by
  cases s <;> rfl

/-- Replacing the first occurrence of a character that does not occur
changes nothing. -/
theorem Replace_absent (o n : Char) : ∀ s : GoString, o ∉ s → Replace s [o] [n] 1 = s
  | [], _ => rfl
  | c :: s, h => by
    have hc : c ≠ o := fun e => h (by simp [e])
    have hs : o ∉ s := fun e => h (List.mem_cons_of_mem c e)
    have ih := Replace_absent o n s hs
    simp only [Replace] at ih ⊢
    simp [replaceGo, startsWith, hc, ih]

/-- After the first occurrence of a character that occurs at most once has
been replaced by another character, it does not occur any more. -/
theorem Replace_once (o n : Char) (hne : n ≠ o) :
    ∀ s : GoString, s.count o ≤ 1 → o ∉ Replace s [o] [n] 1
  | [], _ => by simp [Replace, replaceGo]
  | c :: s, h => by
    by_cases hc : c = o
    · subst hc
      have hs : s.count c = 0 := by
        simp only [List.count_cons_self] at h
        omega
      have hs' : c ∉ s := List.count_eq_zero.mp hs
      simp only [Replace, replaceGo, startsWith, beq_self_eq_true, Bool.and_self, if_true,
        List.length_singleton, Nat.sub_self, replaceGo_zero, List.singleton_append,
        List.mem_cons, not_or]
      exact ⟨fun e => hne e.symm, hs'⟩
    · have hs : s.count o ≤ 1 := by
        rw [List.count_cons_of_ne (fun e => hc e.symm)] at h
        exact h
      have ih := Replace_once o n hne s hs
      simp only [Replace] at ih ⊢
      simp only [replaceGo, startsWith, Bool.and_true, beq_iff_eq, hc, if_false,
        List.mem_cons, not_or]
      exact ⟨fun e => hc e.symm, ih⟩

/-- The index computed by the first loop of `SetPresence` is `0` or the index
of one of the channels. -/
theorem presenceIndex_bound (userID : GoString) :
    ∀ (svcChannels : List Channel) (k : Nat),
      presenceIndex userID svcChannels k = 0 ∨
      presenceIndex userID svcChannels k < k + svcChannels.length := by
  intro svcChannels
  induction svcChannels with
  | nil => intro k; exact Or.inl rfl
  | cons channel rest ih =>
    intro k
    simp only [presenceIndex]
    split_ifs
    · right; simp
    · rcases ih (k + 1) with h | h
      · exact Or.inl h
      · right; simp only [List.length_cons]; omega

/-- Claim C11, as stated, on a label in which the hollow icon occurs twice:
the first call of `SetPresence` with "active" fills the first icon, the
second call fills the second one, so the labels after two calls are not the
labels after one call. -/
theorem SetPresence_twice_counterexample :
    (SetPresence bobTwoHollow bobChannels "U1".toList PresenceActive).map (fun c => c.Items) =
      some ["  ● bob○".toList] ∧
    ((SetPresence bobTwoHollow bobChannels "U1".toList PresenceActive).bind fun c =>
      SetPresence c bobChannels "U1".toList PresenceActive).map (fun c => c.Items) =
      some ["  ● bob●".toList] := by
  decide

/-- Claim C11, amended: for a non-empty label list of the same length as
the channel list, every user ID and every presence state, when the label at
the index that `SetPresence` computes contains the icon to be replaced (the
hollow one for "active", the filled one otherwise) at most once,
`SetPresence` returns, and a second call right after it changes nothing. -/
theorem SetPresence_idempotent (c : Channels) (svcChannels : List Channel)
    (userID presence : GoString) (hne : c.Items ≠ [])
    (hlen : c.Items.length = svcChannels.length)
    (honce : ∀ item : GoString, c.Items[presenceIndex userID svcChannels 0]? = some item →
      item.count (replacedChar presence) ≤ 1) :
    ∃ c1, SetPresence c svcChannels userID presence = some c1 ∧
      SetPresence c1 svcChannels userID presence = some c1 := by
  have hpos : 0 < c.Items.length := List.length_pos.mpr hne
  have hlt : presenceIndex userID svcChannels 0 < c.Items.length := by
    rcases presenceIndex_bound userID svcChannels 0 with h | h <;> omega
  have hget : c.Items[presenceIndex userID svcChannels 0]? =
      some (c.Items[presenceIndex userID svcChannels 0]) := List.getElem?_eq_getElem hlt
  have hcount := honce _ hget
  by_cases hp : presence = PresenceActive
  · subst hp
    have hr : replacedChar PresenceActive = '○' := by decide
    rw [hr] at hcount
    refine ⟨_, SetPresence_active c svcChannels userID _ hget, ?_⟩
    rw [SetPresence_active _ svcChannels userID _ (withLabel_get c _ _ hlt), withLabel_withLabel]
    congr 2
    exact Replace_absent '○' '●' _ (Replace_once '○' '●' (by decide) _ hcount)
  · have hr : replacedChar presence = '●' := by
      simp [replacedChar, hp]
    rw [hr] at hcount
    refine ⟨_, SetPresence_other c svcChannels userID presence _ hp hget, ?_⟩
    rw [SetPresence_other _ svcChannels userID presence _ hp (withLabel_get c _ _ hlt),
      withLabel_withLabel]
    congr 2
    exact Replace_absent '●' '○' _ (Replace_once '●' '○' (by decide) _ hcount)

/-- The amended claim C11 on bob, away with a notification pending, and the
state "active". -/
theorem SetPresence_idempotent_witness :
    bobAway.Items ≠ [] ∧ bobAway.Items.length = bobChannels.length ∧
    (∀ item : GoString, bobAway.Items[presenceIndex "U1".toList bobChannels 0]? = some item →
      item.count (replacedChar PresenceActive) ≤ 1) ∧
    ∃ c1, SetPresence bobAway bobChannels "U1".toList PresenceActive = some c1 ∧
      SetPresence c1 bobChannels "U1".toList PresenceActive = some c1 :=
  have honce : ∀ item : GoString,
      bobAway.Items[presenceIndex "U1".toList bobChannels 0]? = some item →
      item.count (replacedChar PresenceActive) ≤ 1 := by
    intro item h
    have : item = "1 ○ bob".toList := by
      have h0 : bobAway.Items[presenceIndex "U1".toList bobChannels 0]? =
          some "1 ○ bob".toList := by decide
      rw [h0] at h
      exact (Option.some.inj h).symm
    subst this
    decide
  ⟨by decide, by decide, honce,
    SetPresence_idempotent bobAway bobChannels "U1".toList PresenceActive (by decide)
      (by decide) honce⟩

/-! ## Overlays and identities -/

/-- Claim C12, evaluated on the channel named "web1 dev": the label built
with no notification pending is "  # web1 dev", and
`ClearNewMessageIndicator` on that entry cuts it at "1 " and leaves
"  dev". -/
theorem clear_without_notification_fails :
    setChannelLabel webDev false = "  # web1 dev".toList ∧
    ClearNewMessageIndicator (initialState [setChannelLabel webDev false] 1 10) =
      some (initialState ["  dev".toList] 1 10) := by
  decide

/-- Claim C13, evaluated on identities that no channel has: with the
channels "general" and "bob", `SetNotification` for the unknown ID "C9"
writes the notification icon on entry 0; with the channel "bob" alone,
`SetPresence` for the unknown user "U9" and the state "away" turns the icon
of entry 0 hollow. -/
theorem identity_miss_rewrites_entry_zero :
    twoChannelsList.Items = ["  # general".toList, "  ● bob".toList] ∧
    (SetNotification twoChannelsList twoChannels "C9".toList).map (fun c => c.Items) =
      some ["1 # general".toList, "  ● bob".toList] ∧
    bobOnline.Items = ["  ● bob".toList] ∧
    (SetPresence bobOnline bobChannels "U9".toList PresenceAway).map (fun c => c.Items) =
      some ["  ○ bob".toList] := by
  decide

/-- Claim C14, evaluated on the channel named "team1": its freshly built
label is "  # team1"; `SetNotification` for its ID leaves the component as it
is, because the label already contains the character of the icon, and the
label does not begin with the icon followed by a space. -/
theorem notification_not_rendered :
    team1List.Items = ["  # team1".toList] ∧
    SetNotification team1List team1Channels "C1".toList = some team1List ∧
    startsWith "  # team1".toList (IconNotification ++ " ".toList) = false := by
  decide

/-- The first loop of `SetNotification` finds the first channel with the
given ID. -/
theorem notificationIndex_first (channelID : GoString) :
    ∀ (svcChannels : List Channel) (k j : Nat) (ch : Channel),
      svcChannels[j]? = some ch → ch.ID = channelID →
      (∀ (i : Nat) (other : Channel), i < j → svcChannels[i]? = some other →
        other.ID ≠ channelID) →
      notificationIndex channelID svcChannels k = k + j := by
  intro svcChannels
  induction svcChannels with
  | nil => intro k j ch h; simp at h
  | cons a rest ih =>
    intro k j ch hj hid hfirst
    cases j with
    | zero =>
      simp only [List.getElem?_cons_zero, Option.some.injEq] at hj
      subst hj
      simp [notificationIndex, hid]
    | succ j =>
      have ha : a.ID ≠ channelID := hfirst 0 a (Nat.succ_pos j) (by simp)
      have ha' : (channelID == a.ID) = false := by simpa using fun e => ha e.symm
      simp only [List.getElem?_cons_succ] at hj
      simp only [notificationIndex, ha']
      rw [if_neg (by simp), ih (k + 1) j ch hj hid fun i other hi ho =>
        hfirst (i + 1) other (Nat.succ_lt_succ hi) (by simpa using ho)]
      omega

/-- The first loop of `SetPresence` finds the first channel with the given
user ID. -/
theorem presenceIndex_first (userID : GoString) :
    ∀ (svcChannels : List Channel) (k j : Nat) (ch : Channel),
      svcChannels[j]? = some ch → ch.UserID = userID →
      (∀ (i : Nat) (other : Channel), i < j → svcChannels[i]? = some other →
        other.UserID ≠ userID) →
      presenceIndex userID svcChannels k = k + j := by
  intro svcChannels
  induction svcChannels with
  | nil => intro k j ch h; simp at h
  | cons a rest ih =>
    intro k j ch hj hid hfirst
    cases j with
    | zero =>
      simp only [List.getElem?_cons_zero, Option.some.injEq] at hj
      subst hj
      simp [presenceIndex, hid]
    | succ j =>
      have ha : a.UserID ≠ userID := hfirst 0 a (Nat.succ_pos j) (by simp)
      have ha' : (userID == a.UserID) = false := by simpa using fun e => ha e.symm
      simp only [List.getElem?_cons_succ] at hj
      simp only [presenceIndex, ha']
      rw [if_neg (by simp), ih (k + 1) j ch hj hid fun i other hi ho =>
        hfirst (i + 1) other (Nat.succ_lt_succ hi) (by simpa using ho)]
      omega

theorem OverlayFrame_refl (c : Channels) (j : Nat) : OverlayFrame c c j :=
  ⟨rfl, rfl, rfl, rfl, fun _ _ => rfl⟩

theorem OverlayFrame_withLabel (c : Channels) (j : Nat) (label : GoString) :
    OverlayFrame c (withLabel c j label) j := by
  refine ⟨rfl, rfl, rfl, by simp [withLabel], fun k hk => ?_⟩
  simp only [withLabel]
  exact List.getElem?_set_ne (fun e => hk e.symm)

/-- Claim C15: when `j` is the index of the first channel whose ID
(respectively user ID) is the given identity, `SetNotification`
(respectively `SetPresence`, for every state) leaves the selected channel,
the offset, the cursor position, the number of labels and every label other
than the one at index `j` unchanged; and it returns whenever the label list
has an entry `j`. -/
theorem overlays_label_local (c : Channels) (svcChannels : List Channel)
    (identity presence : GoString) (j : Nat) (ch : Channel)
    (hj : svcChannels[j]? = some ch) :
    (ch.ID = identity →
      (∀ (i : Nat) (other : Channel), i < j → svcChannels[i]? = some other →
        other.ID ≠ identity) →
      (∀ c', SetNotification c svcChannels identity = some c' → OverlayFrame c c' j) ∧
      (j < c.Items.length → ∃ c', SetNotification c svcChannels identity = some c')) ∧
    (ch.UserID = identity →
      (∀ (i : Nat) (other : Channel), i < j → svcChannels[i]? = some other →
        other.UserID ≠ identity) →
      (∀ c', SetPresence c svcChannels identity presence = some c' → OverlayFrame c c' j) ∧
      (j < c.Items.length → ∃ c', SetPresence c svcChannels identity presence = some c')) := by
  constructor
  · intro hid hfirst
    have hidx : notificationIndex identity svcChannels 0 = j := by
      rw [notificationIndex_first identity svcChannels 0 j ch hj hid hfirst]; omega
    constructor
    · intro c' h
      simp only [SetNotification, hidx] at h
      cases hitem : c.Items[j]? with
      | none => simp [hitem] at h
      | some item =>
        simp only [hitem] at h
        split_ifs at h
        · cases h; exact OverlayFrame_withLabel c j _
        · cases h; exact OverlayFrame_refl c j
    · intro hlt
      simp only [SetNotification, hidx, List.getElem?_eq_getElem hlt]
      split_ifs
      · exact ⟨_, rfl⟩
      · exact ⟨_, rfl⟩
  · intro hid hfirst
    have hidx : presenceIndex identity svcChannels 0 = j := by
      rw [presenceIndex_first identity svcChannels 0 j ch hj hid hfirst]; omega
    constructor
    · intro c' h
      cases hitem : c.Items[j]? with
      | none => simp [SetPresence, hidx, hitem] at h
      | some item =>
        by_cases hp : presence = PresenceActive
        · subst hp
          rw [SetPresence_active c svcChannels identity item (by rw [hidx]; exact hitem),
            hidx] at h
          cases h; exact OverlayFrame_withLabel c j _
        · rw [SetPresence_other c svcChannels identity presence item hp
            (by rw [hidx]; exact hitem), hidx] at h
          cases h; exact OverlayFrame_withLabel c j _
    · intro hlt
      have hget : c.Items[presenceIndex identity svcChannels 0]? = some (c.Items[j]) := by
        rw [hidx]; exact List.getElem?_eq_getElem hlt
      by_cases hp : presence = PresenceActive
      · subst hp
        exact ⟨_, SetPresence_active c svcChannels identity _ hget⟩
      · exact ⟨_, SetPresence_other c svcChannels identity presence _ hp hget⟩

/-- Claim C15 on the channels "general" and "bob": a notification for the
ID of bob and the presence "away" for the user ID of bob, bob being entry 1. -/
theorem overlays_label_local_witness :
    ((∀ c', SetNotification twoChannelsList twoChannels "D1".toList = some c' →
        OverlayFrame twoChannelsList c' 1) ∧
      (1 < twoChannelsList.Items.length →
        ∃ c', SetNotification twoChannelsList twoChannels "D1".toList = some c')) ∧
    ((∀ c', SetPresence twoChannelsList twoChannels "U1".toList PresenceAway = some c' →
        OverlayFrame twoChannelsList c' 1) ∧
      (1 < twoChannelsList.Items.length →
        ∃ c', SetPresence twoChannelsList twoChannels "U1".toList PresenceAway = some c')) :=
  have hfirst : ∀ (i : Nat) (other : Channel), i < 1 → twoChannels[i]? = some other →
      other.ID ≠ "D1".toList ∧ other.UserID ≠ "U1".toList := by
    intro i other hi ho
    have hi0 : i = 0 := by omega
    subst hi0
    have h0 : twoChannels[0]? = some generalChannel := by decide
    rw [h0] at ho
    cases ho
    decide
  ⟨(overlays_label_local twoChannelsList twoChannels "D1".toList PresenceAway 1
      bobChannel (by decide)).1 (by decide)
      fun i other hi ho => (hfirst i other hi ho).1,
    (overlays_label_local twoChannelsList twoChannels "U1".toList PresenceAway 1
      bobChannel (by decide)).2 (by decide)
      fun i other hi ho => (hfirst i other hi ho).2⟩

/-- The two overlays on bob, evaluated. -/
theorem overlays_scenario :
    (SetNotification twoChannelsList twoChannels "D1".toList).map (fun c => c.Items) =
      some ["  # general".toList, "1 ● bob".toList] ∧
    (SetPresence twoChannelsList twoChannels "U1".toList PresenceAway).map (fun c => c.Items) =
      some ["  # general".toList, "  ○ bob".toList] := by
  decide

/-! ## Invariants of the navigation -/

/-- What `MoveCursorUp` does away from entry 0, when the entry above the
selected one exists: it returns, and only the counters and the text of
labels change. -/
theorem MoveCursorUp_step (c : Channels) (h0 : 0 < c.SelectedChannel)
    (h1 : c.SelectedChannel ≤ c.Items.length) :
    ∃ c', MoveCursorUp c = some c' ∧ c'.Items.length = c.Items.length ∧
      c'.MinY = c.MinY ∧ c'.MaxY = c.MaxY ∧ c'.SelectedChannel = c.SelectedChannel - 1 ∧
      c'.Offset = (if c.CursorPosition = c.MinY then
        (if c.Offset > 0 then c.Offset - 1 else c.Offset) else c.Offset) ∧
      c'.CursorPosition = (if c.CursorPosition = c.MinY then c.CursorPosition
        else c.CursorPosition - 1) := by
  have hfields : (upBeforeClear c).Items = c.Items ∧ (upBeforeClear c).MinY = c.MinY ∧
      (upBeforeClear c).MaxY = c.MaxY ∧
      (upBeforeClear c).SelectedChannel = c.SelectedChannel - 1 ∧
      (upBeforeClear c).Offset = (if c.CursorPosition = c.MinY then
        (if c.Offset > 0 then c.Offset - 1 else c.Offset) else c.Offset) ∧
      (upBeforeClear c).CursorPosition = (if c.CursorPosition = c.MinY then c.CursorPosition
        else c.CursorPosition - 1) := by
    simp only [upBeforeClear, ScrollUp, SetSelectedChannel]
    split_ifs <;> exact ⟨rfl, rfl, rfl, rfl, rfl, rfl⟩
  obtain ⟨hI, hMin, hMax, hS, hO, hC⟩ := hfields
  obtain ⟨c', hc', hlen', hmin', hmax', hsel', hoff', hcur'⟩ :=
    ClearNewMessageIndicator_some (upBeforeClear c) (by rw [hS]; omega) (by rw [hS, hI]; omega)
  refine ⟨c', ?_, by rw [hlen', hI], by rw [hmin', hMin], by rw [hmax', hMax],
    by rw [hsel', hS], by rw [hoff', hO], by rw [hcur', hC]⟩
  unfold MoveCursorUp
  rw [if_pos h0]
  exact hc'

/-- What `MoveCursorDown` does away from the last entry, when the selected
index is at least `-1`: it returns, and only the counters and the text of
labels change. -/
theorem MoveCursorDown_step (c : Channels) (h0 : -1 ≤ c.SelectedChannel)
    (h1 : c.SelectedChannel < (c.Items.length : Int) - 1) :
    ∃ c', MoveCursorDown c = some c' ∧ c'.Items.length = c.Items.length ∧
      c'.MinY = c.MinY ∧ c'.MaxY = c.MaxY ∧ c'.SelectedChannel = c.SelectedChannel + 1 ∧
      c'.Offset = (if c.CursorPosition = c.MaxY - 1 then
        (if c.Offset < (c.Items.length : Int) - 1 then c.Offset + 1 else c.Offset)
        else c.Offset) ∧
      c'.CursorPosition = (if c.CursorPosition = c.MaxY - 1 then c.CursorPosition
        else c.CursorPosition + 1) := by
  have hfields : (downBeforeClear c).Items = c.Items ∧ (downBeforeClear c).MinY = c.MinY ∧
      (downBeforeClear c).MaxY = c.MaxY ∧
      (downBeforeClear c).SelectedChannel = c.SelectedChannel + 1 ∧
      (downBeforeClear c).Offset = (if c.CursorPosition = c.MaxY - 1 then
        (if c.Offset < (c.Items.length : Int) - 1 then c.Offset + 1 else c.Offset)
        else c.Offset) ∧
      (downBeforeClear c).CursorPosition = (if c.CursorPosition = c.MaxY - 1 then
        c.CursorPosition else c.CursorPosition + 1) := by
    simp only [downBeforeClear, ScrollDown, SetSelectedChannel]
    split_ifs <;> exact ⟨rfl, rfl, rfl, rfl, rfl, rfl⟩
  obtain ⟨hI, hMin, hMax, hS, hO, hC⟩ := hfields
  obtain ⟨c', hc', hlen', hmin', hmax', hsel', hoff', hcur'⟩ :=
    ClearNewMessageIndicator_some (downBeforeClear c) (by rw [hS]; omega)
      (by rw [hS, hI]; omega)
  refine ⟨c', ?_, by rw [hlen', hI], by rw [hmin', hMin], by rw [hmax', hMax],
    by rw [hsel', hS], by rw [hoff', hO], by rw [hcur', hC]⟩
  unfold MoveCursorDown
  rw [if_pos h1]
  exact hc'

/-- The loop of `Search` leaves the state alone or jumps to the index of one
of the labels. -/
theorem searchLoop_range (c : Channels) (term : GoString) :
    ∀ (items : List GoString) (k : Int),
      searchLoop c term items k = c ∨
      ∃ i : Nat, i < items.length ∧ searchLoop c term items k = jumpTo c (k + i) := by
  intro items
  induction items with
  | nil => intro k; exact Or.inl rfl
  | cons a rest ih =>
    intro k
    by_cases ha : Contains a term = true
    · exact Or.inr ⟨0, by simp, by simp [searchLoop, ha]⟩
    · have ha' : Contains a term = false := by simpa using ha
      rcases ih (k + 1) with h | ⟨i, hi, h⟩
      · exact Or.inl (by simp only [searchLoop, ha']; exact h)
      · refine Or.inr ⟨i + 1, by simp only [List.length_cons]; omega, ?_⟩
        have hk : k + 1 + (i : Int) = k + ((i + 1 : Nat) : Int) := by push_cast; ring
        simp only [searchLoop, ha']
        rw [← hk]
        simpa using h

/-- The result of `Search`: the state as it was, or the jump to the index of
one of the labels. -/
theorem Search_range (c : Channels) (term : GoString) :
    Search c term = c ∨ ∃ i : Nat, i < c.Items.length ∧ Search c term = jumpTo c i := by
  rcases searchLoop_range c term c.Items 0 with h | ⟨i, hi, h⟩
  · exact Or.inl h
  · exact Or.inr ⟨i, hi, by rw [Search, h]; simp⟩

/-- The fields of the state after a jump of `Search`. -/
theorem jumpTo_fields (c : Channels) (i : Int) :
    (jumpTo c i).Items = c.Items ∧ (jumpTo c i).MinY = c.MinY ∧ (jumpTo c i).MaxY = c.MaxY ∧
    (jumpTo c i).SelectedChannel = i ∧
    (jumpTo c i).Offset = (if i < c.Offset then i
      else if i > c.Offset + (c.MaxY - 2) then c.Offset + (i - (c.Offset + (c.MaxY - 2)))
      else c.Offset) ∧
    (jumpTo c i).CursorPosition = (i - (jumpTo c i).Offset) + 1 := by
  simp only [jumpTo, SetSelectedChannel]
  split_ifs <;> exact ⟨rfl, rfl, rfl, rfl, by first | rfl | (dsimp only; omega), trivial⟩

/-- A property that every navigation operation keeps, returning a state,
holds after every finite sequence of navigation operations. -/
theorem runOps_invariant (Inv : Channels → Prop)
    (hstep : ∀ (c : Channels) (op : NavOp), Inv c → ∃ c', applyOp c op = some c' ∧ Inv c') :
    ∀ (ops : List NavOp) (c : Channels), Inv c → ∃ c', runOps c ops = some c' ∧ Inv c' := by
  intro ops
  induction ops with
  | nil => intro c h; exact ⟨c, rfl, h⟩
  | cons op ops ih =>
    intro c h
    obtain ⟨c1, hc1, h1⟩ := hstep c op h
    obtain ⟨c2, hc2, h2⟩ := ih c1 h1
    exact ⟨c2, by simp [runOps, hc1, hc2], h2⟩

/-- From a state whose selected index is between `-1` and the number of
labels, every navigation operation returns, in a state of the same kind. -/
theorem applyOp_selected (c : Channels) (op : NavOp)
    (h : -1 ≤ c.SelectedChannel ∧ c.SelectedChannel ≤ c.Items.length) :
    ∃ c', applyOp c op = some c' ∧
      (-1 ≤ c'.SelectedChannel ∧ c'.SelectedChannel ≤ c'.Items.length) := by
  obtain ⟨hlo, hhi⟩ := h
  cases op with
  | Up =>
    by_cases h0 : 0 < c.SelectedChannel
    · obtain ⟨c', hc', hlen, _, _, hsel, _, _⟩ := MoveCursorUp_step c h0 hhi
      exact ⟨c', hc', by rw [hsel]; omega, by rw [hsel, hlen]; omega⟩
    · exact ⟨c, by simp [applyOp, MoveCursorUp, h0], hlo, hhi⟩
  | Down =>
    by_cases h1 : c.SelectedChannel < (c.Items.length : Int) - 1
    · obtain ⟨c', hc', hlen, _, _, hsel, _, _⟩ := MoveCursorDown_step c hlo h1
      exact ⟨c', hc', by rw [hsel]; omega, by rw [hsel, hlen]; omega⟩
    · exact ⟨c, by simp [applyOp, MoveCursorDown, h1], hlo, hhi⟩
  | Top =>
    refine ⟨_, rfl, ?_, ?_⟩ <;> simp only [MoveCursorTop, SetSelectedChannel] <;> omega
  | Bottom =>
    refine ⟨_, rfl, ?_, ?_⟩ <;> simp only [MoveCursorBottom, SetSelectedChannel] <;>
      split_ifs <;> dsimp only <;> omega
  | Search term =>
    refine ⟨_, rfl, ?_⟩
    rcases Search_range c term with hs | ⟨i, hi, hs⟩
    · rw [hs]; exact ⟨hlo, hhi⟩
    · obtain ⟨hI, _, _, hS, _, _⟩ := jumpTo_fields c i
      rw [hs, hS, hI]
      constructor <;> omega

/-- Claim C16: for every label list, the empty one included, every window
and every finite sequence of `MoveCursorUp`, `MoveCursorDown`,
`MoveCursorTop`, `MoveCursorBottom` and `Search` from the initial state, the
sequence returns a state (no index is out of range), `MoveCursorUp` and
`MoveCursorDown` return from that state too, and whenever one of them
reaches `ClearNewMessageIndicator` the selected index is inside the list. -/
theorem navigation_never_fails (items : List GoString) (minY maxY : Int) (ops : List NavOp) :
    ∃ c, runOps (initialState items minY maxY) ops = some c ∧
      (∃ u, MoveCursorUp c = some u) ∧ (∃ d, MoveCursorDown c = some d) ∧
      (c.SelectedChannel > 0 → SelectedInRange (upBeforeClear c)) ∧
      (c.SelectedChannel < (c.Items.length : Int) - 1 →
        SelectedInRange (downBeforeClear c)) := by
  have hinit : -1 ≤ (initialState items minY maxY).SelectedChannel ∧
      (initialState items minY maxY).SelectedChannel ≤
        (initialState items minY maxY).Items.length := by
    simp only [initialState, CreateChannels]
    constructor <;> omega
  obtain ⟨c, hc, hlo, hhi⟩ :=
    runOps_invariant (fun c => -1 ≤ c.SelectedChannel ∧ c.SelectedChannel ≤ c.Items.length)
      applyOp_selected ops _ hinit
  obtain ⟨u, hu, _⟩ := applyOp_selected c NavOp.Up ⟨hlo, hhi⟩
  obtain ⟨d, hd, _⟩ := applyOp_selected c NavOp.Down ⟨hlo, hhi⟩
  refine ⟨c, hc, ⟨u, hu⟩, ⟨d, hd⟩, ?_, ?_⟩
  · intro h0
    simp only [SelectedInRange, upBeforeClear, ScrollUp, SetSelectedChannel]
    split_ifs <;> dsimp only <;> constructor <;> omega
  · intro h1
    simp only [SelectedInRange, downBeforeClear, ScrollDown, SetSelectedChannel]
    split_ifs <;> dsimp only <;> constructor <;> omega

/-- Claim C16 on the empty list and on five entries. -/
theorem navigation_never_fails_witness :
    (∃ c, runOps (initialState [] 1 4)
        [NavOp.Bottom, NavOp.Up, NavOp.Down, NavOp.Search [], NavOp.Top] = some c ∧
      (∃ u, MoveCursorUp c = some u) ∧ (∃ d, MoveCursorDown c = some d) ∧
      (c.SelectedChannel > 0 → SelectedInRange (upBeforeClear c)) ∧
      (c.SelectedChannel < (c.Items.length : Int) - 1 →
        SelectedInRange (downBeforeClear c))) ∧
    (∃ c, runOps (initialState fiveEntries 0 3)
        [NavOp.Down, NavOp.Bottom, NavOp.Up, NavOp.Search "bob".toList] = some c ∧
      (∃ u, MoveCursorUp c = some u) ∧ (∃ d, MoveCursorDown c = some d) ∧
      (c.SelectedChannel > 0 → SelectedInRange (upBeforeClear c)) ∧
      (c.SelectedChannel < (c.Items.length : Int) - 1 →
        SelectedInRange (downBeforeClear c))) :=
  ⟨navigation_never_fails [] 1 4 _, navigation_never_fails fiveEntries 0 3 _⟩

/-- Claim C19: for every label list and every window, from a state that
satisfies the four conditions (selected index inside the list, cursor inside
the window, which therefore has `windowTop <= windowBottom`, offset not
negative, selected index equal to offset plus cursor minus window top),
`MoveCursorUp` and `MoveCursorDown` return a state that satisfies them for
the same window and the same number of labels, and the selected index moves
by exactly 1 unless it was 0 (up) or the last index (down). -/
theorem MoveCursor_step_preserves (c : Channels) (h : StepConditions c) :
    (∃ u, MoveCursorUp c = some u ∧ StepConditions u ∧
      u.Items.length = c.Items.length ∧ u.MinY = c.MinY ∧ u.MaxY = c.MaxY ∧
      (c.SelectedChannel ≠ 0 → u.SelectedChannel = c.SelectedChannel - 1)) ∧
    (∃ d, MoveCursorDown c = some d ∧ StepConditions d ∧
      d.Items.length = c.Items.length ∧ d.MinY = c.MinY ∧ d.MaxY = c.MaxY ∧
      (c.SelectedChannel ≠ (c.Items.length : Int) - 1 →
        d.SelectedChannel = c.SelectedChannel + 1)) := by
  obtain ⟨⟨hs0, hs1⟩, ⟨hc0, hc1⟩, ho, heq⟩ := h
  simp only [windowTop, windowBottom] at hc0 hc1 heq
  constructor
  · by_cases h0 : 0 < c.SelectedChannel
    · obtain ⟨u, hu, hlen, hmin, hmax, hsel, hoff, hcur⟩ :=
        MoveCursorUp_step c h0 (by omega)
      refine ⟨u, hu, ?_, hlen, hmin, hmax, fun _ => hsel⟩
      simp only [StepConditions, windowTop, windowBottom, hlen, hmin, hmax, hsel, hoff, hcur]
      split_ifs <;> refine ⟨⟨?_, ?_⟩, ⟨?_, ?_⟩, ?_, ?_⟩ <;> omega
    · have hz : c.SelectedChannel = 0 := by omega
      refine ⟨c, by simp [MoveCursorUp, h0], ?_, rfl, rfl, rfl, fun hn => absurd hz hn⟩
      exact ⟨⟨hs0, hs1⟩, ⟨hc0, hc1⟩, ho, heq⟩
  · by_cases h1 : c.SelectedChannel < (c.Items.length : Int) - 1
    · obtain ⟨d, hd, hlen, hmin, hmax, hsel, hoff, hcur⟩ :=
        MoveCursorDown_step c (by omega) h1
      refine ⟨d, hd, ?_, hlen, hmin, hmax, fun _ => hsel⟩
      simp only [StepConditions, windowTop, windowBottom, hlen, hmin, hmax, hsel, hoff, hcur]
      split_ifs <;> refine ⟨⟨?_, ?_⟩, ⟨?_, ?_⟩, ?_, ?_⟩ <;> omega
    · have hz : c.SelectedChannel = (c.Items.length : Int) - 1 := by omega
      refine ⟨c, by simp [MoveCursorDown, h1], ?_, rfl, rfl, rfl, fun hn => absurd hz hn⟩
      exact ⟨⟨hs0, hs1⟩, ⟨hc0, hc1⟩, ho, heq⟩

/-- Claim C19 on two entries in a window of three rows, the first entry
selected. -/
theorem MoveCursor_step_preserves_witness :
    windowTop firstOfTwo ≤ windowBottom firstOfTwo ∧ StepConditions firstOfTwo ∧
    (∃ u, MoveCursorUp firstOfTwo = some u ∧ StepConditions u ∧
      u.Items.length = firstOfTwo.Items.length ∧ u.MinY = firstOfTwo.MinY ∧
      u.MaxY = firstOfTwo.MaxY ∧
      (firstOfTwo.SelectedChannel ≠ 0 → u.SelectedChannel = firstOfTwo.SelectedChannel - 1)) ∧
    (∃ d, MoveCursorDown firstOfTwo = some d ∧ StepConditions d ∧
      d.Items.length = firstOfTwo.Items.length ∧ d.MinY = firstOfTwo.MinY ∧
      d.MaxY = firstOfTwo.MaxY ∧
      (firstOfTwo.SelectedChannel ≠ (firstOfTwo.Items.length : Int) - 1 →
        d.SelectedChannel = firstOfTwo.SelectedChannel + 1)) :=
  ⟨by decide, by decide, MoveCursor_step_preserves firstOfTwo (by decide)⟩

/-- One step down on two entries, evaluated: entry 1 is selected, the cursor
is on row 2 and the notification of the entry is cleared. -/
theorem MoveCursorDown_clears_scenario :
    MoveCursorDown firstOfTwo =
      some { Items := ["  # general".toList, "  # ops".toList], MinY := 1, MaxY := 4,
             SelectedChannel := 1, Offset := 0, CursorPosition := 2 } := by
  decide

/-! ## The bordered list at the top of the screen -/

/-- Every navigation operation returns and keeps the invariant of the
bordered list at the top of the screen. -/
theorem applyOp_rowOne (n : Nat) (maxY : Int) (hn : 0 < n) (hmax : 2 ≤ maxY) (c : Channels)
    (op : NavOp) (h : RowOneInvariant n maxY c) :
    ∃ c', applyOp c op = some c' ∧ RowOneInvariant n maxY c' := by
  obtain ⟨hlen, hmin, hmaxY, heq, hc1, hc2, ho, hs0, hs1⟩ := h
  cases op with
  | Up =>
    by_cases h0 : 0 < c.SelectedChannel
    · obtain ⟨u, hu, hl, hmi, hma, hsel, hoff, hcur⟩ := MoveCursorUp_step c h0 (by omega)
      refine ⟨u, hu, by rw [hl, hlen], by rw [hmi, hmin], by rw [hma, hmaxY], ?_⟩
      rw [hsel, hoff, hcur, hmin]
      split_ifs <;> refine ⟨?_, ?_, ?_, ?_, ?_, ?_⟩ <;> omega
    · exact ⟨c, by simp [applyOp, MoveCursorUp, h0],
        hlen, hmin, hmaxY, heq, hc1, hc2, ho, hs0, hs1⟩
  | Down =>
    by_cases h1 : c.SelectedChannel < (c.Items.length : Int) - 1
    · obtain ⟨d, hd, hl, hmi, hma, hsel, hoff, hcur⟩ := MoveCursorDown_step c (by omega) h1
      refine ⟨d, hd, by rw [hl, hlen], by rw [hmi, hmin], by rw [hma, hmaxY], ?_⟩
      rw [hsel, hoff, hcur, hmaxY]
      split_ifs <;> refine ⟨?_, ?_, ?_, ?_, ?_, ?_⟩ <;> omega
    · exact ⟨c, by simp [applyOp, MoveCursorDown, h1],
        hlen, hmin, hmaxY, heq, hc1, hc2, ho, hs0, hs1⟩
  | Top =>
    refine ⟨_, rfl, ?_⟩
    simp only [RowOneInvariant, MoveCursorTop, SetSelectedChannel]
    refine ⟨hlen, hmin, hmaxY, ?_, ?_, ?_, ?_, ?_, ?_⟩ <;> omega
  | Bottom =>
    refine ⟨_, rfl, ?_⟩
    simp only [RowOneInvariant, MoveCursorBottom, SetSelectedChannel]
    split_ifs <;> dsimp only <;> refine ⟨hlen, hmin, hmaxY, ?_, ?_, ?_, ?_, ?_, ?_⟩ <;> omega
  | Search term =>
    refine ⟨_, rfl, ?_⟩
    rcases Search_range c term with hs | ⟨i, hi, hs⟩
    · rw [hs]; exact ⟨hlen, hmin, hmaxY, heq, hc1, hc2, ho, hs0, hs1⟩
    · obtain ⟨hI, hMi, hMa, hS, hO, hC⟩ := jumpTo_fields c i
      rw [hs]
      refine ⟨by rw [hI, hlen], by rw [hMi, hmin], by rw [hMa, hmaxY], ?_⟩
      rw [hS, hC, hO]
      split_ifs <;> refine ⟨?_, ?_, ?_, ?_, ?_, ?_⟩ <;> omega

/-- No row below the cursor row is drawn highlighted. -/
theorem bufferRows_below (c : Channels) :
    ∀ (items : List GoString) (i : Int), c.CursorPosition < c.MinY + i →
      highlightedRows (bufferRows c items i) = [] := by
  intro items
  induction items with
  | nil => intro i _; rfl
  | cons a rest ih =>
    intro i h
    simp only [bufferRows]
    split_ifs
    · rfl
    · have hne : ¬ c.MinY + i = c.CursorPosition := by omega
      have hrest := ih (i + 1) (by omega)
      simp only [highlightedRows] at hrest ⊢
      simp [List.filter_cons, hne, hrest]

/-- The row drawn highlighted is the cursor row, and it shows the label that
lies as far from the first drawn label as the cursor row from the first
drawn row. -/
theorem bufferRows_cursor (c : Channels) (hc : c.CursorPosition ≤ c.MaxY - 1) :
    ∀ (items : List GoString) (i : Int) (k : Nat) (label : GoString),
      c.MinY + i + k = c.CursorPosition → items[k]? = some label →
      highlightedRows (bufferRows c items i) = [(c.CursorPosition, label, true)] := by
  intro items
  induction items with
  | nil => intro i k label _ h; simp at h
  | cons a rest ih =>
    intro i k label hk hget
    have hy : ¬ c.MinY + i > c.MaxY - 1 := by omega
    simp only [bufferRows, hy, if_false]
    cases k with
    | zero =>
      simp only [List.getElem?_cons_zero, Option.some.injEq] at hget
      subst hget
      have hrow : c.MinY + i = c.CursorPosition := by simpa using hk
      have hrest := bufferRows_below c rest (i + 1) (by omega)
      simp only [highlightedRows] at hrest ⊢
      simp [List.filter_cons, hrow, hrest]
    | succ k =>
      simp only [List.getElem?_cons_succ] at hget
      have hne : ¬ c.MinY + i = c.CursorPosition := by push_cast at hk; omega
      have hrest := ih (i + 1) k label (by push_cast at hk ⊢; omega) hget
      simp only [highlightedRows] at hrest ⊢
      simp [List.filter_cons, hne, hrest]

/-- Under the invariant of the bordered list at the top of the screen,
`Buffer` draws exactly one row highlighted, the cursor row, and that row
shows the selected entry. -/
theorem Buffer_highlights_selected (n : Nat) (maxY : Int) (c : Channels)
    (h : RowOneInvariant n maxY c) :
    ∃ label, index c.Items c.SelectedChannel = some label ∧
      (Buffer c).map highlightedRows = some [(c.CursorPosition, label, true)] := by
  obtain ⟨hlen, hmin, hmaxY, heq, hc1, hc2, ho, hs0, hs1⟩ := h
  have hlt : c.SelectedChannel.toNat < c.Items.length := by omega
  refine ⟨c.Items[c.SelectedChannel.toNat], ?_, ?_⟩
  · simp [index, hs0, List.getElem?_eq_getElem hlt]
  · have hoff : 0 ≤ c.Offset ∧ c.Offset ≤ (c.Items.length : Int) := ⟨ho, by omega⟩
    simp only [Buffer, hoff, and_self, if_true, Option.map_some']
    congr 1
    apply bufferRows_cursor c (by omega) _ 0 (c.SelectedChannel.toNat - c.Offset.toNat)
    · omega
    · rw [List.getElem?_drop]
      have hidx : c.Offset.toNat + (c.SelectedChannel.toNat - c.Offset.toNat) =
          c.SelectedChannel.toNat := by omega
      rw [hidx]
      exact List.getElem?_eq_getElem hlt

/-- Claim C20: for a bordered list at the top of the screen (`Min.Y = 1`,
`Max.Y >= 2`) and a non-empty label list, every finite sequence of
`MoveCursorUp`, `MoveCursorDown`, `MoveCursorTop`, `MoveCursorBottom` and
`Search` from the initial state `{0, 0, 1}` returns a state with
`SelectedChannel = Offset + (CursorPosition - 1)`,
`1 <= CursorPosition <= Max.Y - 1`, `0 <= Offset` and
`0 <= SelectedChannel < len(Items)`; and in that state the one row that
`Buffer` draws highlighted shows the selected entry. -/
theorem rowOne_invariant (items : List GoString) (maxY : Int) (ops : List NavOp)
    (hne : items ≠ []) (hmax : 2 ≤ maxY) :
    ∃ c, runOps (initialState items 1 maxY) ops = some c ∧
      RowOneInvariant items.length maxY c ∧
      ∃ label, index c.Items c.SelectedChannel = some label ∧
        (Buffer c).map highlightedRows = some [(c.CursorPosition, label, true)] := by
  have hpos : 0 < items.length := List.length_pos.mpr hne
  have hinit : RowOneInvariant items.length maxY (initialState items 1 maxY) := by
    simp only [RowOneInvariant, initialState, CreateChannels]
    refine ⟨trivial, trivial, trivial, ?_, ?_, ?_, ?_, ?_, ?_⟩ <;> omega
  obtain ⟨c, hc, hinv⟩ :=
    runOps_invariant (RowOneInvariant items.length maxY)
      (fun c op h => applyOp_rowOne items.length maxY hpos hmax c op h) ops _ hinit
  exact ⟨c, hc, hinv, Buffer_highlights_selected items.length maxY c hinv⟩

/-- Claim C20 on five entries in a window of two rows. -/
theorem rowOne_invariant_witness :
    fiveEntries ≠ [] ∧ (2 : Int) ≤ 3 ∧
    ∃ c, runOps (initialState fiveEntries 1 3)
        [NavOp.Search "bob".toList, NavOp.Down, NavOp.Bottom, NavOp.Up, NavOp.Up] = some c ∧
      RowOneInvariant fiveEntries.length 3 c ∧
      ∃ label, index c.Items c.SelectedChannel = some label ∧
        (Buffer c).map highlightedRows = some [(c.CursorPosition, label, true)] :=
  ⟨by decide, by decide, rowOne_invariant fiveEntries 3 _ (by decide) (by decide)⟩

/-- A run on five entries in a window of two rows, evaluated: after a search
for "bob", one step down, a jump to the bottom and two steps up, entry 2 is
selected, drawn from offset 2 on row 1. -/
theorem rowOne_scenario :
    (runOps (initialState fiveEntries 1 3)
      [NavOp.Search "bob".toList, NavOp.Down, NavOp.Bottom, NavOp.Up, NavOp.Up]).map
        (fun c => (c.SelectedChannel, c.Offset, c.CursorPosition)) = some (2, 2, 1) := by
  decide

/-! ## Clearing without a notification -/

/-- A string in which the separator does not occur is not split. -/
theorem splitGo_absent (sep : GoString) :
    ∀ (s acc : GoString), Contains s sep = false → splitGo sep s acc 0 = [acc.reverse ++ s]
  | [], acc, _ => by simp [splitGo]
  | c :: s, acc, h => by
    simp only [Contains, Bool.or_eq_false_iff] at h
    simp only [splitGo, h.1, Bool.false_eq_true, if_false]
    rw [splitGo_absent sep s (c :: acc) h.2]
    simp

/-- On a label that does not contain the icon followed by a space,
`ClearNewMessageIndicator` changes nothing: a label is cut only when it
contains "1 ". -/
theorem ClearNewMessageIndicator_absent (c : Channels) (item : GoString)
    (hitem : index c.Items c.SelectedChannel = some item)
    (habsent : Contains item (IconNotification ++ " ".toList) = false) :
    ClearNewMessageIndicator c = some c := by
  have hsplit : Split item (IconNotification ++ " ".toList) = [item] := by
    have h := splitGo_absent (IconNotification ++ " ".toList) item [] habsent
    simpa [Split, IconNotification] using h
  have hget : c.Items[c.SelectedChannel.toNat]? = some item := by
    unfold index at hitem
    split_ifs at hitem
    exact hitem
  simp only [ClearNewMessageIndicator, hitem, hsplit, List.length_singleton,
    gt_iff_lt, lt_self_iff_false, if_false, List.getD_cons_zero]
  rw [set_of_getElem? c.Items _ _ hget]

end SlackTerm
